import Mathlib

/-!
Shallow embedding of the DBM (difference bound matrix) engine of `dbmviz.py`.

The Python module stores a DBM as a flat list `self.dbm` of `(clocks)^2`
integers (where `self.clocks` counts the reference clock `0`), with the
sentinel `infinity = 100000`.  We translate the class faithfully:

* `DBM.getI` / `DBM.setI` are `__getitem__` / `__setitem__`;
* the constructors `DBM.true`, `DBM.false`, `DBM.zero` build the matrices
  exactly as the Python static methods do (the display colour, fetched by
  the Python constructor from a global `itertools.cycle`, is passed in as
  an explicit argument);
* `DBM.is_consistent`, `DBM.canonize`, `DBM.free`, `DBM.reset`, `DBM.copy`
  and `DBM.eq` (`__eq__`) mirror the methods line by line;
* `DBM.leq` returns an `Option DBM`: the inconsistent branch of the Python
  method executes `DBM.false()` without the required `clocks` argument and
  therefore raises `TypeError`, which we model as `none`;
* the REPL commands `up`, `down`, the `free` command, `extrapolate` and
  `LUextrapolate` are translated as the functions `DBM.up`, `DBM.down`,
  `DBM.freeCmd`, `DBM.extrapolate` and `DBM.lu_extrapolate`.
-/

def infinity : Int := 100000

structure DBM where
  clocks : Nat
  dbm : List Int
  color : String
deriving Repr, DecidableEq

namespace DBM

/-- Python `__getitem__`: `self.dbm[index[0] * self.clocks + index[1]]`. -/
def getI (d : DBM) (i j : Nat) : Int :=
  d.dbm.getD (i * d.clocks + j) 0

/-- Python `__setitem__`: `self.dbm[index[0] * self.clocks + index[1]] = value`. -/
def setI (d : DBM) (i j : Nat) (v : Int) : DBM :=
  { d with dbm := d.dbm.set (i * d.clocks + j) v }

/-- Python `__init__`: `clocks + 1` including the 0-clock, matrix of zeroes.
The colour (drawn from the global colour cycle in Python) is an argument. -/
def init (clocks : Nat) (color : String) : DBM :=
  ⟨clocks + 1, List.replicate ((clocks + 1) ^ 2) 0, color⟩

/-- Python `DBM.true`: every row `c1 ∈ [1, clocks]` is filled with `infinity`
(including the diagonal entry), then row `0` is set to `0`. -/
protected def true (clocks : Nat) (color : String) : DBM :=
  let d := init clocks color
  let d := (List.range clocks).foldl
    (fun d c1 => (List.range (clocks + 1)).foldl
      (fun d c2 => d.setI (c1 + 1) c2 infinity) d) d
  (List.range (clocks + 1)).foldl (fun d c2 => d.setI 0 c2 0) d

/-- Python `DBM.false`: `dbm.dbm = [-1 for _ in range((clocks + 1)**2)]`. -/
protected def false (clocks : Nat) (color : String) : DBM :=
  let d := init clocks color
  { d with dbm := List.replicate ((clocks + 1) ^ 2) (-1) }

/-- Python `DBM.zero`: just the constructor (all-zero matrix). -/
protected def zero (clocks : Nat) (color : String) : DBM :=
  init clocks color

/-- Python `is_consistent`: `False` iff some pair has `-D[c1,c2] > D[c2,c1]`. -/
def is_consistent (d : DBM) : Bool :=
  (List.range d.clocks).all fun c1 =>
    (List.range d.clocks).all fun c2 =>
      !(decide (-(d.getI c1 c2) > d.getI c2 c1))

/-- Body of the double loop of Python `canonize` for one pair `(c1, c2)`:
skip the diagonal, let `c3 = self.clocks - c1 - c2` (the third index when
`clocks = 3`), and tighten `D[c1,c2]` through `c3`, writing `infinity`
when an operand of the sum is `infinity`.  For `clocks = 3` — the only
dimension the program builds — `c3` is always the index distinct from
`c1` and `c2`, and the truncating `Nat` subtraction agrees with Python's
integer subtraction on every pair the loop visits. -/
def canonizeStep (d : DBM) (c1 c2 : Nat) : DBM :=
  if c1 = c2 then d
  else
    let c3 := d.clocks - c1 - c2
    if d.getI c1 c2 > d.getI c1 c3 + d.getI c3 c2 then
      d.setI c1 c2
        (if d.getI c1 c3 ≠ infinity ∧ d.getI c3 c2 ≠ infinity then
          d.getI c1 c3 + d.getI c3 c2
        else infinity)
    else d

/-- Python `canonize`: the double loop `for c1 in range(self.clocks): for c2
in range(self.clocks)` over `canonizeStep`. -/
def canonize (d : DBM) : DBM :=
  (List.range d.clocks).foldl
    (fun d c1 => (List.range d.clocks).foldl
      (fun d c2 => canonizeStep d c1 c2) d) d

/-- Python `leq` (the tighten primitive): `self[clock1, clock2] =
min(self[clock1, clock2], value)`; when the result is inconsistent the
Python method executes `DBM.false()` — a call that omits the required
`clocks` argument and raises `TypeError`, modelled as `none` — and
otherwise canonizes. -/
def leq (d : DBM) (clock1 clock2 : Nat) (value : Int) : Option DBM :=
  let d := d.setI clock1 clock2 (min (d.getI clock1 clock2) value)
  if d.is_consistent then some d.canonize else none

/-- Python `free`: `D[0, clock2] = 0` when `clock1 == 0`, otherwise
`D[clock1, clock2] = infinity`.  No canonization. -/
def free (d : DBM) (clock1 clock2 : Nat) : DBM :=
  if clock1 = 0 then d.setI 0 clock2 0 else d.setI clock1 clock2 infinity

/-- Mutation phase of Python `reset` (everything before the final
`self.canonize()`): set `D[clock,0]` and `D[0,clock]` to `value` and sever
the correlation with every other real clock. -/
def resetPre (d : DBM) (clock : Nat) (value : Int) : DBM :=
  let d := d.setI clock 0 value
  let d := d.setI 0 clock value
  (List.range (d.clocks - 1)).foldl
    (fun d c => let clock2 := c + 1
      if clock2 ≠ clock then (d.setI clock clock2 infinity).setI clock2 clock infinity
      else d) d

/-- Python `reset`: the mutation phase followed by `canonize`. -/
def reset (d : DBM) (clock : Nat) (value : Int) : DBM :=
  (d.resetPre clock value).canonize

/-- Python `copy`: a new instance with the same dimension, a copied entry
list and the same colour. -/
protected def copy (d : DBM) : DBM :=
  ⟨d.clocks, d.dbm, d.color⟩

/-- Python `__eq__`: equal dimension and pairwise equal entries of the
zipped entry lists (the colour is not compared). -/
def eq (d1 d2 : DBM) : Bool :=
  (d1.clocks == d2.clocks) && (d1.dbm.zip d2.dbm).all fun p => p.1 == p.2

/-- REPL command `up` (delay): `free(1, 0)` then `free(2, 0)`. -/
def up (d : DBM) : DBM :=
  (d.free 1 0).free 2 0

/-- REPL command `down`: `free(0, 1)` then `free(0, 2)`. -/
def down (d : DBM) : DBM :=
  (d.free 0 1).free 0 2

/-- REPL command `free`: `dbm.free(x1, x2)` followed by `dbm.canonize()`. -/
def freeCmd (d : DBM) (x1 x2 : Nat) : DBM :=
  (d.free x1 x2).canonize

/-- Body of the double loop of the REPL `extrapolate` command for one pair
`(x1, x2)`: skip the diagonal; a bound above `M[x1]` becomes `infinity`; a
bound below `-M[x2]` becomes `-M[x2]`. -/
def extrapStep (d : DBM) (M : List Int) (x1 x2 : Nat) : DBM :=
  if x1 = x2 then d
  else if d.getI x1 x2 > M.getD x1 0 then d.setI x1 x2 infinity
  else if -(d.getI x1 x2) > M.getD x2 0 then d.setI x1 x2 (-(M.getD x2 0))
  else d

/-- Loop of the REPL `extrapolate` command over the pairs
`x1, x2 ∈ [0, 1, 2]` with the maxima list `M` (`M[0]` is set to `infinity`
by the command). -/
def extrapolateLoop (d : DBM) (M : List Int) : DBM :=
  ([0, 1, 2] : List Nat).foldl
    (fun d x1 => ([0, 1, 2] : List Nat).foldl
      (fun d x2 => extrapStep d M x1 x2) d) d

/-- REPL command `extrapolate`: the loop followed by `dbm.canonize()`. -/
def extrapolate (d : DBM) (M : List Int) : DBM :=
  (d.extrapolateLoop M).canonize

/-- Body of the double loop of the REPL `LUextrapolate` command with lower
maxima `L` and upper maxima `U`. -/
def luExtrapStep (d : DBM) (L U : List Int) (x1 x2 : Nat) : DBM :=
  if x1 = x2 then d
  else if d.getI x1 x2 > L.getD x1 0 then d.setI x1 x2 infinity
  else if -(d.getI x1 x2) > U.getD x2 0 then d.setI x1 x2 (-(U.getD x2 0))
  else d

/-- Loop of the REPL `LUextrapolate` command. -/
def luExtrapolateLoop (d : DBM) (L U : List Int) : DBM :=
  ([0, 1, 2] : List Nat).foldl
    (fun d x1 => ([0, 1, 2] : List Nat).foldl
      (fun d x2 => luExtrapStep d L U x1 x2) d) d

/-- REPL command `LUextrapolate`: the loop followed by `dbm.canonize()`. -/
def lu_extrapolate (d : DBM) (L U : List Int) : DBM :=
  (d.luExtrapolateLoop L U).canonize

end DBM

/-!
Analysis vocabulary.

`bAdd` is the infinity-aware addition of bounds that the spec describes
(`infinity + anything = infinity`); `okN N e` says that the bound `e` is
either the `infinity` sentinel or a finite value of magnitude at most `N`
(the spec requires the sentinel to be "guaranteed never to be reached by
legitimate finite arithmetic", so a DBM whose finite entries live well
below the sentinel is the faithful reading of the data model).
-/

def bAdd (x y : Int) : Int := if x = infinity ∨ y = infinity then infinity else x + y

def okN (N e : Int) : Prop := e = infinity ∨ (-N ≤ e ∧ e ≤ N)

instance (N e : Int) : Decidable (okN N e) := by unfold okN; infer_instance

namespace DBM

/-- Shape of a 2-clock DBM as built by the REPL: a 3 × 3 matrix. -/
def WF3 (d : DBM) : Prop := d.clocks = 3 ∧ d.dbm.length = 9

/-- Entries of a 2-clock DBM are valid bounds: the sentinel or a small
finite value. -/
def EntriesOk (d : DBM) : Prop := ∀ i, i < 3 → ∀ j, j < 3 → okN 1000 (d.getI i j)

/-- Zero diagonal. -/
def zeroDiag (d : DBM) : Prop := ∀ i, i < 3 → d.getI i i = 0

/-- The closure (canonical-form) property of the spec: every entry is at
most every two-step path, with infinity-aware addition. -/
def Closed (d : DBM) : Prop :=
  ∀ i, i < 3 → ∀ k, k < 3 → ∀ j, j < 3 → d.getI i j ≤ bAdd (d.getI i k) (d.getI k j)

/-- All cycles of the constraint graph are nonnegative: the pairwise
cycles (which is exactly `is_consistent`) and the two triangles. -/
def nonnegCycles (d : DBM) : Prop :=
  (∀ i, i < 3 → ∀ j, j < 3 → 0 ≤ d.getI i j + d.getI j i) ∧
    0 ≤ d.getI 0 1 + d.getI 1 2 + d.getI 2 0 ∧
    0 ≤ d.getI 0 2 + d.getI 2 1 + d.getI 1 0

/-- Changing only the colour of a DBM: models the Python assignment
`dbm.color = c` of the REPL `color` command. -/
def recolor (d : DBM) (c : String) : DBM := { d with color := c }

/-- Two DBMs with the same dimension and the same entries (the colour may
differ): the equivalence the colour never influences. -/
def sameMat (d1 d2 : DBM) : Prop := d1.clocks = d2.clocks ∧ d1.dbm = d2.dbm

/-- The operation sequence of the spec scenario: `zero(2)`, `delay`,
`tighten(x,0,5)`, `tighten(0,y,-3)`, `reset(y,0)`, `delay`,
`tighten(y,0,3)`.  `delay` is the REPL `up`; each `tighten` may fail (the
`DBM.false()` TypeError), hence the `Option`. -/
def scenario (col : String) : Option DBM := do
  let d := (DBM.zero 2 col).up
  let d ← d.leq 1 0 5
  let d ← d.leq 0 2 (-3)
  let d := ((d.reset 2 0).up)
  d.leq 2 0 3

end DBM

instance (d : DBM) : Decidable (DBM.WF3 d) := by unfold DBM.WF3; infer_instance
instance (d : DBM) : Decidable (DBM.EntriesOk d) := by unfold DBM.EntriesOk; infer_instance
instance (d : DBM) : Decidable (DBM.zeroDiag d) := by unfold DBM.zeroDiag; infer_instance
instance (d : DBM) : Decidable (DBM.Closed d) := by unfold DBM.Closed; infer_instance
instance (d : DBM) : Decidable (DBM.nonnegCycles d) := by
  unfold DBM.nonnegCycles; infer_instance

/-!
Heap model for the aliasing claim about `copy`.

Python objects are mutable and live on a heap: a `DBM` instance is an
object holding a reference to a separate list object (`self.dbm`), plus
the scalar fields `clocks` and `color`.  To state that `copy` shares no
mutable state with the original we make both heaps explicit: `Heap.lists`
stores the list objects, `Heap.objs` the DBM instances, and a DBM
instance is addressed by its index in `Heap.objs`.  `Heap.copy` performs
exactly what the Python method does: it allocates a fresh instance whose
`dbmRef` points to a freshly allocated copy of the entry list
(`dbm.dbm = self.dbm.copy()`) and whose colour is that of the original.
-/

structure DBMObj where
  clocks : Nat
  dbmRef : Nat
  color : String
deriving Repr, DecidableEq

structure Heap where
  lists : List (List Int)
  objs : List DBMObj
deriving Repr, DecidableEq

namespace Heap

def noObj : DBMObj := ⟨0, 0, ""⟩

def obj (h : Heap) (o : Nat) : DBMObj := h.objs.getD o noObj

def matrix (h : Heap) (o : Nat) : List Int := h.lists.getD (h.obj o).dbmRef []

/-- Reading entry `(i, j)` of the instance at address `o`. -/
def getEntry (h : Heap) (o : Nat) (i j : Nat) : Int :=
  (h.matrix o).getD (i * (h.obj o).clocks + j) 0

/-- Python `self[i, j] = v`: mutates the list object the instance refers to. -/
def setEntry (h : Heap) (o : Nat) (i j : Nat) (v : Int) : Heap :=
  let newList := (h.matrix o).set (i * (h.obj o).clocks + j) v
  { h with lists := h.lists.set (h.obj o).dbmRef newList }

/-- Python `dbm.color = c`: mutates the instance itself. -/
def setColor (h : Heap) (o : Nat) (c : String) : Heap :=
  { h with objs := h.objs.set o { h.obj o with color := c } }

/-- Python `DBM.copy`: allocate a fresh list object holding a copy of the
entries and a fresh instance with the same `clocks` and `color`,
returning the new heap and the address of the new instance. -/
def copy (h : Heap) (o : Nat) : Heap × Nat :=
  (⟨h.lists ++ [h.matrix o], h.objs ++ [⟨(h.obj o).clocks, h.lists.length, (h.obj o).color⟩]⟩,
    h.objs.length)

/-- A valid address: the instance exists and its list reference is live. -/
def valid (h : Heap) (o : Nat) : Prop :=
  o < h.objs.length ∧ (h.obj o).dbmRef < h.lists.length

end Heap

instance (h : Heap) (o : Nat) : Decidable (Heap.valid h o) := by
  unfold Heap.valid; infer_instance

/-- Independence of a copied DBM instance from its original (the heap
half of the `copy` contract): the copy reads equal, and mutating entries
or the colour of either instance leaves the other instance untouched. -/
def copyIndependent (h : Heap) (o : Nat) : Prop :=
  (((h.copy o).1.obj (h.copy o).2).clocks = (h.obj o).clocks ∧
    (h.copy o).1.matrix (h.copy o).2 = h.matrix o ∧
    ((h.copy o).1.obj (h.copy o).2).color = (h.obj o).color) ∧
  ((h.copy o).1.obj o = h.obj o ∧ (h.copy o).1.matrix o = h.matrix o) ∧
  (∀ i j : Nat, ∀ v : Int,
    ((h.copy o).1.setEntry (h.copy o).2 i j v).matrix o = (h.copy o).1.matrix o ∧
    ((h.copy o).1.setEntry (h.copy o).2 i j v).obj o = (h.copy o).1.obj o) ∧
  (∀ i j : Nat, ∀ v : Int,
    ((h.copy o).1.setEntry o i j v).matrix (h.copy o).2 =
      (h.copy o).1.matrix (h.copy o).2 ∧
    ((h.copy o).1.setEntry o i j v).obj (h.copy o).2 =
      (h.copy o).1.obj (h.copy o).2) ∧
  (∀ c : String,
    ((h.copy o).1.setColor (h.copy o).2 c).obj o = (h.copy o).1.obj o ∧
    ((h.copy o).1.setColor (h.copy o).2 c).matrix o = (h.copy o).1.matrix o) ∧
  (∀ c : String,
    ((h.copy o).1.setColor o c).obj (h.copy o).2 = (h.copy o).1.obj (h.copy o).2 ∧
    ((h.copy o).1.setColor o c).matrix (h.copy o).2 = (h.copy o).1.matrix (h.copy o).2)


/-! Generic list access lemmas used throughout. -/

lemma listGetD_set_self {α : Type} (dflt v : α) :
    ∀ (l : List α) (n : Nat), n < l.length → (l.set n v).getD n dflt = v := by
  intro l
  induction l with
  | nil => intro n h; simp at h
  | cons a tl ih =>
    intro n h
    cases n with
    | zero => rfl
    | succ m => exact ih m (by simpa using h)

lemma listGetD_set_ne {α : Type} (dflt v : α) :
    ∀ (l : List α) (m n : Nat), m ≠ n → (l.set m v).getD n dflt = l.getD n dflt := by
  intro l
  induction l with
  | nil => intro m n _; rfl
  | cons a tl ih =>
    intro m n hmn
    cases m with
    | zero =>
      cases n with
      | zero => exact absurd rfl hmn
      | succ k => rfl
    | succ m0 =>
      cases n with
      | zero => rfl
      | succ k => exact ih m0 k (by omega)

lemma listSet_getD_self {α : Type} (dflt : α) :
    ∀ (l : List α) (n : Nat), n < l.length → l.set n (l.getD n dflt) = l := by
  intro l
  induction l with
  | nil => intro n h; simp at h
  | cons a tl ih =>
    intro n h
    cases n with
    | zero => rfl
    | succ m => simpa using ih m (by simpa using h)

lemma listGetD_append_left {α : Type} (dflt : α) :
    ∀ (l l2 : List α) (n : Nat), n < l.length → (l ++ l2).getD n dflt = l.getD n dflt := by
  intro l
  induction l with
  | nil => intro l2 n h; simp at h
  | cons a tl ih =>
    intro l2 n h
    cases n with
    | zero => rfl
    | succ m => exact ih l2 m (by simpa using h)

lemma listGetD_append_length {α : Type} (dflt x : α) :
    ∀ (l : List α), (l ++ [x]).getD l.length dflt = x := by
  intro l
  induction l with
  | nil => rfl
  | cons a tl ih => simpa using ih

/-! Facts about the infinity-aware addition `bAdd`. -/

lemma bAdd_spec {x u v : Int} (h : x = bAdd u v) :
    (x = 100000 ∧ (u = 100000 ∨ v = 100000)) ∨ (x = u + v ∧ u ≠ 100000 ∧ v ≠ 100000) := by
  unfold bAdd infinity at h
  split_ifs at h with hc
  · exact Or.inl ⟨h, hc⟩
  · push_neg at hc
    exact Or.inr ⟨h, hc.1, hc.2⟩

lemma nonneg_bAdd {x y : Int} (h : 0 ≤ x + y) : 0 ≤ bAdd x y := by
  unfold bAdd infinity
  split_ifs <;> omega

lemma le_bAdd_zero_right {x : Int} (h : x ≤ 100000) : x ≤ bAdd x 0 := by
  unfold bAdd infinity
  split_ifs <;> omega

lemma le_bAdd_zero_left {x : Int} (h : x ≤ 100000) : x ≤ bAdd 0 x := by
  unfold bAdd infinity
  split_ifs <;> omega

namespace DBM

/-! Bookkeeping lemmas for `setI` and `canonizeStep` on 3 × 3 matrices. -/

lemma clocks_setI (d : DBM) (i j : Nat) (v : Int) : (d.setI i j v).clocks = d.clocks := rfl

lemma length_setI (d : DBM) (i j : Nat) (v : Int) :
    (d.setI i j v).dbm.length = d.dbm.length := by
  simp [setI]

lemma clocks_canonizeStep (d : DBM) (c1 c2 : Nat) :
    (canonizeStep d c1 c2).clocks = d.clocks := by
  simp only [canonizeStep]
  split_ifs <;> rfl

lemma length_canonizeStep (d : DBM) (c1 c2 : Nat) :
    (canonizeStep d c1 c2).dbm.length = d.dbm.length := by
  simp only [canonizeStep]
  split_ifs <;> simp [setI]

lemma canonizeStep_same (d : DBM) (c : Nat) : canonizeStep d c c = d := by
  simp [canonizeStep]

lemma getI_setI_self (d : DBM) (hcl : d.clocks = 3) (hlen : d.dbm.length = 9)
    (i j : Nat) (hi : i < 3) (hj : j < 3) (v : Int) :
    (d.setI i j v).getI i j = v := by
  unfold getI setI
  simp only [hcl]
  exact listGetD_set_self 0 v d.dbm (i * 3 + j) (by omega)

lemma getI_setI_ne (d : DBM) (hcl : d.clocks = 3)
    (i j k l : Nat) (hi : i < 3) (hj : j < 3) (hk : k < 3) (hl : l < 3)
    (hne : ¬(i = k ∧ j = l)) (v : Int) :
    (d.setI i j v).getI k l = d.getI k l := by
  unfold getI setI
  simp only [hcl]
  exact listGetD_set_ne 0 v d.dbm (i * 3 + j) (k * 3 + l) (by omega)

lemma setI_getI_self (d : DBM) (hlen : d.dbm.length = 9)
    (i j : Nat) (hij : i * d.clocks + j < 9) :
    d.setI i j (d.getI i j) = d := by
  unfold getI setI
  rcases d with ⟨cl, l, col⟩
  simp only [mk.injEq, and_true, true_and]
  exact listSet_getD_self 0 l _ (by simp_all)

lemma canonizeStep_other (d : DBM) (hcl : d.clocks = 3)
    (c1 c2 k l : Nat) (h1 : c1 < 3) (h2 : c2 < 3) (hk : k < 3) (hl : l < 3)
    (hne : ¬(c1 = k ∧ c2 = l)) :
    (canonizeStep d c1 c2).getI k l = d.getI k l := by
  simp only [canonizeStep]
  split_ifs with hd hg hf
  · rfl
  · exact getI_setI_ne d hcl c1 c2 k l h1 h2 hk hl hne _
  · exact getI_setI_ne d hcl c1 c2 k l h1 h2 hk hl hne _
  · rfl

lemma canonizeStep_target (d : DBM) (hcl : d.clocks = 3) (hlen : d.dbm.length = 9)
    (c1 c2 : Nat) (h1 : c1 < 3) (h2 : c2 < 3) (hne : c1 ≠ c2)
    (hcur : okN 10000 (d.getI c1 c2))
    (hx : okN 10000 (d.getI c1 (3 - c1 - c2)))
    (hy : okN 10000 (d.getI (3 - c1 - c2) c2)) :
    (canonizeStep d c1 c2).getI c1 c2 =
      min (d.getI c1 c2) (bAdd (d.getI c1 (3 - c1 - c2)) (d.getI (3 - c1 - c2) c2)) := by
  unfold okN infinity at hcur hx hy
  simp only [canonizeStep, hcl]
  rw [if_neg hne]
  split_ifs with hg hfin
  · rw [getI_setI_self d hcl hlen c1 c2 h1 h2]
    unfold bAdd infinity
    rw [if_neg (by push_neg; exact ⟨hfin.1, hfin.2⟩)]
    omega
  · rw [getI_setI_self d hcl hlen c1 c2 h1 h2]
    unfold bAdd infinity
    rw [if_pos (by unfold infinity at hfin; tauto)]
    unfold infinity at hfin
    push_neg at hfin
    rcases Classical.em (d.getI c1 (3 - c1 - c2) = 100000) with hxe | hxe
    · rcases hy with hy | hy <;> omega
    · have := hfin hxe
      rcases hx with hx2 | hx2 <;> omega
  · unfold bAdd infinity
    split_ifs with hfin2
    · rcases hcur with hcur | hcur <;> omega
    · omega

lemma range3 : List.range 3 = [0, 1, 2] := rfl

lemma canonize_chain (d : DBM) (hcl : d.clocks = 3) :
    canonize d =
      (((((((((d.canonizeStep 0 0).canonizeStep 0 1).canonizeStep 0 2).canonizeStep
        1 0).canonizeStep 1 1).canonizeStep 1 2).canonizeStep 2 0).canonizeStep
        2 1).canonizeStep 2 2) := by
  simp only [canonize, hcl, clocks_canonizeStep, range3, List.foldl_cons, List.foldl_nil]

end DBM

/-! Range and closure facts about one `min`/`bAdd` tightening step.  These
arithmetic lemmas mirror the six updates of `canonize` on a 3 × 3 matrix
(entries named `b c p r s t` for positions 01 02 10 12 20 21, updated
values `nb nc np nr ns nt`). -/

lemma okN_mono {A B e : Int} (hAB : A ≤ B) (h : okN A e) : okN B e := by
  unfold okN at *
  omega

lemma okN_min_bAdd {z u v A B C : Int} (hz : okN A z) (hu : okN B u) (hv : okN C v)
    (hA : 0 ≤ A) (hB : 0 ≤ B) (hC : 0 ≤ C) (hBC : B + C ≤ 100000) :
    okN (A + B + C) (min z (bAdd u v)) := by
  unfold okN infinity at *
  rcases bAdd_spec (rfl : bAdd u v = bAdd u v) with ⟨e, d⟩ | ⟨e, u1, v1⟩ <;> omega

lemma pair_bp (b p r s c t x1 x3 nb np : Int)
    (hb : -10000 ≤ b ∧ b ≤ 100000) (hp : -10000 ≤ p ∧ p ≤ 100000)
    (h01 : 0 ≤ b + p) (h02 : 0 ≤ c + s) (h12 : 0 ≤ r + t)
    (hcy1 : 0 ≤ b + r + s) (hcy2 : 0 ≤ c + t + p)
    (hr : -10000 ≤ r) (hs : -10000 ≤ s) (hc : -10000 ≤ c) (ht : -10000 ≤ t)
    (a1 : x1 = bAdd c t) (hB : nb = min b x1)
    (a3 : x3 = bAdd r s) (hP : np = min p x3) :
    0 ≤ nb + np := by
  rcases bAdd_spec a1 with ⟨e1, d1⟩ | ⟨e1, u1, v1⟩ <;>
  rcases bAdd_spec a3 with ⟨e3, d3⟩ | ⟨e3, u3, v3⟩ <;> omega

lemma fact_nbrs (b c t r s x1 nb : Int)
    (hb : -10000 ≤ b ∧ b ≤ 100000)
    (hcy1 : 0 ≤ b + r + s) (hcts : 0 ≤ c + t + r + s)
    (hr : -10000 ≤ r) (hs : -10000 ≤ s)
    (a1 : x1 = bAdd c t) (hB : nb = min b x1) :
    0 ≤ nb + r + s := by
  rcases bAdd_spec a1 with ⟨e1, d1⟩ | ⟨e1, u1, v1⟩ <;> omega

lemma fact_ctnp (c t p r s x3 np : Int)
    (hp : -10000 ≤ p ∧ p ≤ 100000)
    (hcy2 : 0 ≤ c + t + p) (hcts : 0 ≤ c + t + r + s)
    (hc : -10000 ≤ c) (ht : -10000 ≤ t)
    (a3 : x3 = bAdd r s) (hP : np = min p x3) :
    0 ≤ c + t + np := by
  rcases bAdd_spec a3 with ⟨e3, d3⟩ | ⟨e3, u3, v3⟩ <;> omega

lemma pair_cs (c s nb r t np x2 x5 nc ns : Int)
    (hc : -10000 ≤ c ∧ c ≤ 100000) (hs : -10000 ≤ s ∧ s ≤ 100000)
    (hnb : -50000 ≤ nb ∧ nb ≤ 100000) (hnp : -50000 ≤ np ∧ np ≤ 100000)
    (h02 : 0 ≤ c + s) (h12 : 0 ≤ r + t)
    (hf1 : 0 ≤ nb + np) (hf2 : 0 ≤ nb + r + s) (hf3 : 0 ≤ c + t + np)
    (a2 : x2 = bAdd nb r) (hC : nc = min c x2)
    (a5 : x5 = bAdd t np) (hS : ns = min s x5) :
    0 ≤ nc + ns := by
  rcases bAdd_spec a2 with ⟨e2, d2⟩ | ⟨e2, u2, v2⟩ <;>
  rcases bAdd_spec a5 with ⟨e5, d5⟩ | ⟨e5, u5, v5⟩ <;> omega

lemma fact_rnsnb (r s t np nb ns x5 : Int)
    (hs : -10000 ≤ s ∧ s ≤ 100000)
    (hnb : -50000 ≤ nb ∧ nb ≤ 100000) (hnp : -50000 ≤ np)
    (h12 : 0 ≤ r + t)
    (hf1 : 0 ≤ nb + np) (hf2 : 0 ≤ nb + r + s)
    (a5 : x5 = bAdd t np) (hS : ns = min s x5) :
    0 ≤ r + ns + nb := by
  rcases bAdd_spec a5 with ⟨e5, d5⟩ | ⟨e5, u5, v5⟩ <;> omega

lemma fact_tnpnc (c t r np nb nc x2 : Int)
    (hc : -10000 ≤ c ∧ c ≤ 100000)
    (hnb : -50000 ≤ nb ∧ nb ≤ 100000) (hnp : -50000 ≤ np)
    (h12 : 0 ≤ r + t)
    (hf1 : 0 ≤ nb + np) (hf3 : 0 ≤ c + t + np)
    (a2 : x2 = bAdd nb r) (hC : nc = min c x2) :
    0 ≤ t + np + nc := by
  rcases bAdd_spec a2 with ⟨e2, d2⟩ | ⟨e2, u2, v2⟩ <;> omega

lemma pair_rt (r t np nc ns nb x4 x6 nr nt : Int)
    (hrt : -10000 ≤ r ∧ r ≤ 100000) (htt : -10000 ≤ t ∧ t ≤ 100000)
    (hnp : -50000 ≤ np ∧ np ≤ 100000) (hnc : -50000 ≤ nc ∧ nc ≤ 100000)
    (hns : -50000 ≤ ns ∧ ns ≤ 100000) (hnb : -50000 ≤ nb ∧ nb ≤ 100000)
    (h12 : 0 ≤ r + t)
    (hf1 : 0 ≤ nb + np) (hf4 : 0 ≤ nc + ns)
    (hrnsnb : 0 ≤ r + ns + nb) (htnpnc : 0 ≤ t + np + nc)
    (a4 : x4 = bAdd np nc) (hR : nr = min r x4)
    (a6 : x6 = bAdd ns nb) (hT : nt = min t x6) :
    0 ≤ nr + nt := by
  rcases bAdd_spec a4 with ⟨e4, d4⟩ | ⟨e4, u4, v4⟩ <;>
  rcases bAdd_spec a6 with ⟨e6, d6⟩ | ⟨e6, u6, v6⟩ <;> omega

lemma q1_lemma (b c t r nb nc nt ns x1 x2 x6 y1 : Int)
    (hnb : -50000 ≤ nb ∧ nb ≤ 100000)
    (h12 : 0 ≤ r + t)
    (hf4 : 0 ≤ nc + ns)
    (hrnsnb : 0 ≤ r + ns + nb)
    (a1 : x1 = bAdd c t) (hB : nb = min b x1)
    (a2 : x2 = bAdd nb r) (hC : nc = min c x2)
    (a6 : x6 = bAdd ns nb) (hT : nt = min t x6)
    (g1 : y1 = bAdd nc nt) :
    nb ≤ y1 := by
  rcases bAdd_spec g1 with ⟨e0, d0⟩ | ⟨e0, u0, v0⟩ <;>
  rcases bAdd_spec a1 with ⟨e1, d1⟩ | ⟨e1, u1, v1⟩ <;>
  rcases bAdd_spec a2 with ⟨e2, d2⟩ | ⟨e2, u2, v2⟩ <;>
  rcases bAdd_spec a6 with ⟨e6, d6⟩ | ⟨e6, u6, v6⟩ <;> omega

lemma q2_lemma (c r nb nc np nr x2 x4 y2 : Int)
    (hnc : -50000 ≤ nc ∧ nc ≤ 100000)
    (hf1 : 0 ≤ nb + np)
    (a2 : x2 = bAdd nb r) (hC : nc = min c x2)
    (a4 : x4 = bAdd np nc) (hR : nr = min r x4)
    (g2 : y2 = bAdd nb nr) :
    nc ≤ y2 := by
  rcases bAdd_spec g2 with ⟨e0, d0⟩ | ⟨e0, u0, v0⟩ <;>
  rcases bAdd_spec a2 with ⟨e2, d2⟩ | ⟨e2, u2, v2⟩ <;>
  rcases bAdd_spec a4 with ⟨e4, d4⟩ | ⟨e4, u4, v4⟩ <;> omega

lemma q3_lemma (p r s t np nr ns nc x3 x4 x5 y3 : Int)
    (hnp : -50000 ≤ np ∧ np ≤ 100000)
    (h12 : 0 ≤ r + t)
    (hf4 : 0 ≤ nc + ns)
    (htnpnc : 0 ≤ t + np + nc)
    (a3 : x3 = bAdd r s) (hP : np = min p x3)
    (a4 : x4 = bAdd np nc) (hR : nr = min r x4)
    (a5 : x5 = bAdd t np) (hS : ns = min s x5)
    (g3 : y3 = bAdd nr ns) :
    np ≤ y3 := by
  rcases bAdd_spec g3 with ⟨e0, d0⟩ | ⟨e0, u0, v0⟩ <;>
  rcases bAdd_spec a3 with ⟨e3, d3⟩ | ⟨e3, u3, v3⟩ <;>
  rcases bAdd_spec a4 with ⟨e4, d4⟩ | ⟨e4, u4, v4⟩ <;>
  rcases bAdd_spec a5 with ⟨e5, d5⟩ | ⟨e5, u5, v5⟩ <;> omega

lemma q5_lemma (s t np nt ns nb x5 x6 y5 : Int)
    (hns : -50000 ≤ ns ∧ ns ≤ 100000)
    (hf1 : 0 ≤ nb + np)
    (a5 : x5 = bAdd t np) (hS : ns = min s x5)
    (a6 : x6 = bAdd ns nb) (hT : nt = min t x6)
    (g5 : y5 = bAdd nt np) :
    ns ≤ y5 := by
  rcases bAdd_spec g5 with ⟨e0, d0⟩ | ⟨e0, u0, v0⟩ <;>
  rcases bAdd_spec a5 with ⟨e5, d5⟩ | ⟨e5, u5, v5⟩ <;>
  rcases bAdd_spec a6 with ⟨e6, d6⟩ | ⟨e6, u6, v6⟩ <;> omega

/-- Main analysis of `canonize` on a 2-clock DBM with valid bounds, zero
diagonal and no negative cycle: one sweep reaches the shortest-path
closure, and all entries stay valid bounds (within the enlarged finite
range `okN 10000`). -/
lemma canonize_spec (d : DBM) (hcl : d.clocks = 3) (hlen : d.dbm.length = 9)
    (hok : DBM.EntriesOk d) (hdiag : DBM.zeroDiag d) (hcyc : DBM.nonnegCycles d) :
    DBM.Closed (DBM.canonize d) ∧
      (∀ i, i < 3 → ∀ j, j < 3 → okN 10000 ((DBM.canonize d).getI i j)) := by
  obtain ⟨hpair, hcy1, hcy2⟩ := hcyc
  have hokW : ∀ i, i < 3 → ∀ j, j < 3 → okN 10000 (d.getI i j) := fun i hi j hj =>
    okN_mono (by norm_num) (hok i hi j hj)
  -- the six tightened values
  obtain ⟨x1, hx1⟩ : ∃ x, x = bAdd (d.getI 0 2) (d.getI 2 1) := ⟨_, rfl⟩
  obtain ⟨vB, hvB⟩ : ∃ x, x = min (d.getI 0 1) x1 := ⟨_, rfl⟩
  obtain ⟨x2, hx2⟩ : ∃ x, x = bAdd vB (d.getI 1 2) := ⟨_, rfl⟩
  obtain ⟨vC, hvC⟩ : ∃ x, x = min (d.getI 0 2) x2 := ⟨_, rfl⟩
  obtain ⟨x3, hx3⟩ : ∃ x, x = bAdd (d.getI 1 2) (d.getI 2 0) := ⟨_, rfl⟩
  obtain ⟨vP, hvP⟩ : ∃ x, x = min (d.getI 1 0) x3 := ⟨_, rfl⟩
  obtain ⟨x4, hx4⟩ : ∃ x, x = bAdd vP vC := ⟨_, rfl⟩
  obtain ⟨vR, hvR⟩ : ∃ x, x = min (d.getI 1 2) x4 := ⟨_, rfl⟩
  obtain ⟨x5, hx5⟩ : ∃ x, x = bAdd (d.getI 2 1) vP := ⟨_, rfl⟩
  obtain ⟨vS, hvS⟩ : ∃ x, x = min (d.getI 2 0) x5 := ⟨_, rfl⟩
  obtain ⟨x6, hx6⟩ : ∃ x, x = bAdd vS vB := ⟨_, rfl⟩
  obtain ⟨vT, hvT⟩ : ∃ x, x = min (d.getI 2 1) x6 := ⟨_, rfl⟩
  -- ranges of the tightened values
  have rB : okN 3000 vB := by
    rw [hvB, hx1]
    exact okN_min_bAdd (hok 0 (by norm_num) 1 (by norm_num)) (hok 0 (by norm_num) 2 (by norm_num))
      (hok 2 (by norm_num) 1 (by norm_num)) (by norm_num) (by norm_num) (by norm_num) (by norm_num)
  have rC : okN 5000 vC := by
    rw [hvC, hx2]
    exact okN_min_bAdd (hok 0 (by norm_num) 2 (by norm_num)) rB
      (hok 1 (by norm_num) 2 (by norm_num)) (by norm_num) (by norm_num) (by norm_num) (by norm_num)
  have rP : okN 3000 vP := by
    rw [hvP, hx3]
    exact okN_min_bAdd (hok 1 (by norm_num) 0 (by norm_num)) (hok 1 (by norm_num) 2 (by norm_num))
      (hok 2 (by norm_num) 0 (by norm_num)) (by norm_num) (by norm_num) (by norm_num) (by norm_num)
  have rR : okN 9000 vR := by
    rw [hvR, hx4]
    exact okN_min_bAdd (hok 1 (by norm_num) 2 (by norm_num)) rP rC
      (by norm_num) (by norm_num) (by norm_num) (by norm_num)
  have rS : okN 5000 vS := by
    rw [hvS, hx5]
    exact okN_min_bAdd (hok 2 (by norm_num) 0 (by norm_num))
      (hok 2 (by norm_num) 1 (by norm_num)) rP (by norm_num) (by norm_num) (by norm_num) (by norm_num)
  have rT : okN 9000 vT := by
    rw [hvT, hx6]
    exact okN_min_bAdd (hok 2 (by norm_num) 1 (by norm_num)) rS rB
      (by norm_num) (by norm_num) (by norm_num) (by norm_num)
  -- the sweep, step by step
  have hch : DBM.canonize d =
      (((((d.canonizeStep 0 1).canonizeStep 0 2).canonizeStep 1 0).canonizeStep
        1 2).canonizeStep 2 0).canonizeStep 2 1 := by
    rw [DBM.canonize_chain d hcl]
    simp only [DBM.canonizeStep_same]
  obtain ⟨e1, he1⟩ : ∃ x, x = d.canonizeStep 0 1 := ⟨_, rfl⟩
  obtain ⟨e2, he2⟩ : ∃ x, x = e1.canonizeStep 0 2 := ⟨_, rfl⟩
  obtain ⟨e3, he3⟩ : ∃ x, x = e2.canonizeStep 1 0 := ⟨_, rfl⟩
  obtain ⟨e4, he4⟩ : ∃ x, x = e3.canonizeStep 1 2 := ⟨_, rfl⟩
  obtain ⟨e5, he5⟩ : ∃ x, x = e4.canonizeStep 2 0 := ⟨_, rfl⟩
  obtain ⟨e6, he6⟩ : ∃ x, x = e5.canonizeStep 2 1 := ⟨_, rfl⟩
  have hch6 : DBM.canonize d = e6 := by
    rw [hch, he6, he5, he4, he3, he2, he1]
  have hcl1 : e1.clocks = 3 := by rw [he1, DBM.clocks_canonizeStep, hcl]
  have hcl2 : e2.clocks = 3 := by rw [he2, DBM.clocks_canonizeStep, hcl1]
  have hcl3 : e3.clocks = 3 := by rw [he3, DBM.clocks_canonizeStep, hcl2]
  have hcl4 : e4.clocks = 3 := by rw [he4, DBM.clocks_canonizeStep, hcl3]
  have hcl5 : e5.clocks = 3 := by rw [he5, DBM.clocks_canonizeStep, hcl4]
  have hlen1 : e1.dbm.length = 9 := by rw [he1, DBM.length_canonizeStep, hlen]
  have hlen2 : e2.dbm.length = 9 := by rw [he2, DBM.length_canonizeStep, hlen1]
  have hlen3 : e3.dbm.length = 9 := by rw [he3, DBM.length_canonizeStep, hlen2]
  have hlen4 : e4.dbm.length = 9 := by rw [he4, DBM.length_canonizeStep, hlen3]
  have hlen5 : e5.dbm.length = 9 := by rw [he5, DBM.length_canonizeStep, hlen4]
  have u1 : ∀ k, k < 3 → ∀ l, l < 3 → ¬(k = 0 ∧ l = 1) → e1.getI k l = d.getI k l := by
    intro k hk l hl hne
    rw [he1]
    exact DBM.canonizeStep_other d hcl 0 1 k l (by norm_num) (by norm_num) hk hl
      (by rintro ⟨rfl, rfl⟩; exact hne ⟨rfl, rfl⟩)
  have u2 : ∀ k, k < 3 → ∀ l, l < 3 → ¬(k = 0 ∧ l = 2) → e2.getI k l = e1.getI k l := by
    intro k hk l hl hne
    rw [he2]
    exact DBM.canonizeStep_other e1 hcl1 0 2 k l (by norm_num) (by norm_num) hk hl
      (by rintro ⟨rfl, rfl⟩; exact hne ⟨rfl, rfl⟩)
  have u3 : ∀ k, k < 3 → ∀ l, l < 3 → ¬(k = 1 ∧ l = 0) → e3.getI k l = e2.getI k l := by
    intro k hk l hl hne
    rw [he3]
    exact DBM.canonizeStep_other e2 hcl2 1 0 k l (by norm_num) (by norm_num) hk hl
      (by rintro ⟨rfl, rfl⟩; exact hne ⟨rfl, rfl⟩)
  have u4 : ∀ k, k < 3 → ∀ l, l < 3 → ¬(k = 1 ∧ l = 2) → e4.getI k l = e3.getI k l := by
    intro k hk l hl hne
    rw [he4]
    exact DBM.canonizeStep_other e3 hcl3 1 2 k l (by norm_num) (by norm_num) hk hl
      (by rintro ⟨rfl, rfl⟩; exact hne ⟨rfl, rfl⟩)
  have u5 : ∀ k, k < 3 → ∀ l, l < 3 → ¬(k = 2 ∧ l = 0) → e5.getI k l = e4.getI k l := by
    intro k hk l hl hne
    rw [he5]
    exact DBM.canonizeStep_other e4 hcl4 2 0 k l (by norm_num) (by norm_num) hk hl
      (by rintro ⟨rfl, rfl⟩; exact hne ⟨rfl, rfl⟩)
  have u6 : ∀ k, k < 3 → ∀ l, l < 3 → ¬(k = 2 ∧ l = 1) → e6.getI k l = e5.getI k l := by
    intro k hk l hl hne
    rw [he6]
    exact DBM.canonizeStep_other e5 hcl5 2 1 k l (by norm_num) (by norm_num) hk hl
      (by rintro ⟨rfl, rfl⟩; exact hne ⟨rfl, rfl⟩)
  have t1 : e1.getI 0 1 = vB := by
    rw [he1, hvB, hx1]
    exact DBM.canonizeStep_target d hcl hlen 0 1 (by norm_num) (by norm_num) (by norm_num)
      (hokW 0 (by norm_num) 1 (by norm_num)) (hokW 0 (by norm_num) 2 (by norm_num))
      (hokW 2 (by norm_num) 1 (by norm_num))
  have t2 : e2.getI 0 2 = vC := by
    have h := DBM.canonizeStep_target e1 hcl1 hlen1 0 2 (by norm_num) (by norm_num)
      (by norm_num)
      (by rw [u1 0 (by norm_num) 2 (by norm_num) (by omega)]
          exact hokW 0 (by norm_num) 2 (by norm_num))
      (by rw [t1]; exact okN_mono (by norm_num) rB)
      (by rw [u1 1 (by norm_num) 2 (by norm_num) (by omega)]
          exact hokW 1 (by norm_num) 2 (by norm_num))
    rw [← he2] at h
    rw [h, u1 0 (by norm_num) 2 (by norm_num) (by omega), t1,
      u1 1 (by norm_num) 2 (by norm_num) (by omega), hvC, hx2]
  have t3 : e3.getI 1 0 = vP := by
    have h12d : e2.getI 1 2 = d.getI 1 2 := by
      rw [u2 1 (by norm_num) 2 (by norm_num) (by omega),
        u1 1 (by norm_num) 2 (by norm_num) (by omega)]
    have h20d : e2.getI 2 0 = d.getI 2 0 := by
      rw [u2 2 (by norm_num) 0 (by norm_num) (by omega),
        u1 2 (by norm_num) 0 (by norm_num) (by omega)]
    have h10d : e2.getI 1 0 = d.getI 1 0 := by
      rw [u2 1 (by norm_num) 0 (by norm_num) (by omega),
        u1 1 (by norm_num) 0 (by norm_num) (by omega)]
    have h := DBM.canonizeStep_target e2 hcl2 hlen2 1 0 (by norm_num) (by norm_num)
      (by norm_num)
      (by rw [h10d]; exact hokW 1 (by norm_num) 0 (by norm_num))
      (by rw [h12d]; exact hokW 1 (by norm_num) 2 (by norm_num))
      (by rw [h20d]; exact hokW 2 (by norm_num) 0 (by norm_num))
    rw [← he3] at h
    rw [h, h10d, h12d, h20d, hvP, hx3]
  have t4 : e4.getI 1 2 = vR := by
    have h12d : e3.getI 1 2 = d.getI 1 2 := by
      rw [u3 1 (by norm_num) 2 (by norm_num) (by omega),
        u2 1 (by norm_num) 2 (by norm_num) (by omega),
        u1 1 (by norm_num) 2 (by norm_num) (by omega)]
    have h10v : e3.getI 1 0 = vP := t3
    have h02v : e3.getI 0 2 = vC := by
      rw [u3 0 (by norm_num) 2 (by norm_num) (by omega)]
      exact t2
    have h := DBM.canonizeStep_target e3 hcl3 hlen3 1 2 (by norm_num) (by norm_num)
      (by norm_num)
      (by rw [h12d]; exact hokW 1 (by norm_num) 2 (by norm_num))
      (by rw [h10v]; exact okN_mono (by norm_num) rP)
      (by rw [h02v]; exact okN_mono (by norm_num) rC)
    rw [← he4] at h
    rw [h, h12d, h10v, h02v, hvR, hx4]
  have t5 : e5.getI 2 0 = vS := by
    have h20d : e4.getI 2 0 = d.getI 2 0 := by
      rw [u4 2 (by norm_num) 0 (by norm_num) (by omega),
        u3 2 (by norm_num) 0 (by norm_num) (by omega),
        u2 2 (by norm_num) 0 (by norm_num) (by omega),
        u1 2 (by norm_num) 0 (by norm_num) (by omega)]
    have h21d : e4.getI 2 1 = d.getI 2 1 := by
      rw [u4 2 (by norm_num) 1 (by norm_num) (by omega),
        u3 2 (by norm_num) 1 (by norm_num) (by omega),
        u2 2 (by norm_num) 1 (by norm_num) (by omega),
        u1 2 (by norm_num) 1 (by norm_num) (by omega)]
    have h10v : e4.getI 1 0 = vP := by
      rw [u4 1 (by norm_num) 0 (by norm_num) (by omega)]
      exact t3
    have h := DBM.canonizeStep_target e4 hcl4 hlen4 2 0 (by norm_num) (by norm_num)
      (by norm_num)
      (by rw [h20d]; exact hokW 2 (by norm_num) 0 (by norm_num))
      (by rw [h21d]; exact hokW 2 (by norm_num) 1 (by norm_num))
      (by rw [h10v]; exact okN_mono (by norm_num) rP)
    rw [← he5] at h
    rw [h, h20d, h21d, h10v, hvS, hx5]
  have t6 : e6.getI 2 1 = vT := by
    have h21d : e5.getI 2 1 = d.getI 2 1 := by
      rw [u5 2 (by norm_num) 1 (by norm_num) (by omega),
        u4 2 (by norm_num) 1 (by norm_num) (by omega),
        u3 2 (by norm_num) 1 (by norm_num) (by omega),
        u2 2 (by norm_num) 1 (by norm_num) (by omega),
        u1 2 (by norm_num) 1 (by norm_num) (by omega)]
    have h20v : e5.getI 2 0 = vS := t5
    have h01v : e5.getI 0 1 = vB := by
      rw [u5 0 (by norm_num) 1 (by norm_num) (by omega),
        u4 0 (by norm_num) 1 (by norm_num) (by omega),
        u3 0 (by norm_num) 1 (by norm_num) (by omega),
        u2 0 (by norm_num) 1 (by norm_num) (by omega)]
      exact t1
    have h := DBM.canonizeStep_target e5 hcl5 hlen5 2 1 (by norm_num) (by norm_num)
      (by norm_num)
      (by rw [h21d]; exact hokW 2 (by norm_num) 1 (by norm_num))
      (by rw [h20v]; exact okN_mono (by norm_num) rS)
      (by rw [h01v]; exact okN_mono (by norm_num) rB)
    rw [← he6] at h
    rw [h, h21d, h20v, h01v, hvT, hx6]
  -- the nine entries of the canonized matrix
  have g01 : e6.getI 0 1 = vB := by
    rw [u6 0 (by norm_num) 1 (by norm_num) (by omega),
      u5 0 (by norm_num) 1 (by norm_num) (by omega),
      u4 0 (by norm_num) 1 (by norm_num) (by omega),
      u3 0 (by norm_num) 1 (by norm_num) (by omega),
      u2 0 (by norm_num) 1 (by norm_num) (by omega)]
    exact t1
  have g02 : e6.getI 0 2 = vC := by
    rw [u6 0 (by norm_num) 2 (by norm_num) (by omega),
      u5 0 (by norm_num) 2 (by norm_num) (by omega),
      u4 0 (by norm_num) 2 (by norm_num) (by omega),
      u3 0 (by norm_num) 2 (by norm_num) (by omega)]
    exact t2
  have g10 : e6.getI 1 0 = vP := by
    rw [u6 1 (by norm_num) 0 (by norm_num) (by omega),
      u5 1 (by norm_num) 0 (by norm_num) (by omega),
      u4 1 (by norm_num) 0 (by norm_num) (by omega)]
    exact t3
  have g12 : e6.getI 1 2 = vR := by
    rw [u6 1 (by norm_num) 2 (by norm_num) (by omega),
      u5 1 (by norm_num) 2 (by norm_num) (by omega)]
    exact t4
  have g20 : e6.getI 2 0 = vS := by
    rw [u6 2 (by norm_num) 0 (by norm_num) (by omega)]
    exact t5
  have g21 : e6.getI 2 1 = vT := t6
  have gdiag : ∀ i, i < 3 → e6.getI i i = 0 := by
    intro i hi
    rw [u6 i hi i hi (by omega), u5 i hi i hi (by omega), u4 i hi i hi (by omega),
      u3 i hi i hi (by omega), u2 i hi i hi (by omega), u1 i hi i hi (by omega)]
    exact hdiag i hi
  -- bounds in plain form
  have bb : -10000 ≤ d.getI 0 1 ∧ d.getI 0 1 ≤ 100000 := by
    have := hok 0 (by norm_num) 1 (by norm_num); unfold okN infinity at this; omega
  have bc : -10000 ≤ d.getI 0 2 ∧ d.getI 0 2 ≤ 100000 := by
    have := hok 0 (by norm_num) 2 (by norm_num); unfold okN infinity at this; omega
  have bp : -10000 ≤ d.getI 1 0 ∧ d.getI 1 0 ≤ 100000 := by
    have := hok 1 (by norm_num) 0 (by norm_num); unfold okN infinity at this; omega
  have br : -10000 ≤ d.getI 1 2 ∧ d.getI 1 2 ≤ 100000 := by
    have := hok 1 (by norm_num) 2 (by norm_num); unfold okN infinity at this; omega
  have bs : -10000 ≤ d.getI 2 0 ∧ d.getI 2 0 ≤ 100000 := by
    have := hok 2 (by norm_num) 0 (by norm_num); unfold okN infinity at this; omega
  have bt : -10000 ≤ d.getI 2 1 ∧ d.getI 2 1 ≤ 100000 := by
    have := hok 2 (by norm_num) 1 (by norm_num); unfold okN infinity at this; omega
  have bvB : -50000 ≤ vB ∧ vB ≤ 100000 := by unfold okN infinity at rB; omega
  have bvC : -50000 ≤ vC ∧ vC ≤ 100000 := by unfold okN infinity at rC; omega
  have bvP : -50000 ≤ vP ∧ vP ≤ 100000 := by unfold okN infinity at rP; omega
  have bvR : -50000 ≤ vR ∧ vR ≤ 100000 := by unfold okN infinity at rR; omega
  have bvS : -50000 ≤ vS ∧ vS ≤ 100000 := by unfold okN infinity at rS; omega
  have bvT : -50000 ≤ vT ∧ vT ≤ 100000 := by unfold okN infinity at rT; omega
  -- cycle facts for the original entries
  have p01 : 0 ≤ d.getI 0 1 + d.getI 1 0 := hpair 0 (by norm_num) 1 (by norm_num)
  have p02 : 0 ≤ d.getI 0 2 + d.getI 2 0 := hpair 0 (by norm_num) 2 (by norm_num)
  have p12 : 0 ≤ d.getI 1 2 + d.getI 2 1 := hpair 1 (by norm_num) 2 (by norm_num)
  have hcts : 0 ≤ d.getI 0 2 + d.getI 2 1 + d.getI 1 2 + d.getI 2 0 := by omega
  -- pairwise and closure facts for the tightened values
  have f1 : 0 ≤ vB + vP :=
    pair_bp (d.getI 0 1) (d.getI 1 0) (d.getI 1 2) (d.getI 2 0) (d.getI 0 2) (d.getI 2 1)
      x1 x3 vB vP bb bp p01 p02 p12 (by omega) (by omega) br.1 bs.1 bc.1 bt.1 hx1 hvB hx3 hvP
  have f2 : 0 ≤ vB + d.getI 1 2 + d.getI 2 0 :=
    fact_nbrs (d.getI 0 1) (d.getI 0 2) (d.getI 2 1) (d.getI 1 2) (d.getI 2 0) x1 vB bb
      (by omega) (by omega) br.1 bs.1 hx1 hvB
  have f3 : 0 ≤ d.getI 0 2 + d.getI 2 1 + vP :=
    fact_ctnp (d.getI 0 2) (d.getI 2 1) (d.getI 1 0) (d.getI 1 2) (d.getI 2 0) x3 vP bp
      (by omega) (by omega) bc.1 bt.1 hx3 hvP
  have f4 : 0 ≤ vC + vS :=
    pair_cs (d.getI 0 2) (d.getI 2 0) vB (d.getI 1 2) (d.getI 2 1) vP x2 x5 vC vS
      bc bs bvB bvP p02 p12 f1 f2 f3 hx2 hvC hx5 hvS
  have f5a : 0 ≤ d.getI 1 2 + vS + vB :=
    fact_rnsnb (d.getI 1 2) (d.getI 2 0) (d.getI 2 1) vP vB vS x5 bs bvB bvP.1 p12 f1 f2 hx5 hvS
  have f5b : 0 ≤ d.getI 2 1 + vP + vC :=
    fact_tnpnc (d.getI 0 2) (d.getI 2 1) (d.getI 1 2) vP vB vC x2 bc bvB bvP.1 p12 f1 f3 hx2 hvC
  have f5 : 0 ≤ vR + vT :=
    pair_rt (d.getI 1 2) (d.getI 2 1) vP vC vS vB x4 x6 vR vT br bt bvP bvC bvS bvB
      p12 f1 f4 f5a f5b hx4 hvR hx6 hvT
  have q1 : vB ≤ bAdd vC vT :=
    q1_lemma (d.getI 0 1) (d.getI 0 2) (d.getI 2 1) (d.getI 1 2) vB vC vT vS x1 x2 x6
      (bAdd vC vT) bvB p12 f4 f5a hx1 hvB hx2 hvC hx6 hvT rfl
  have q2 : vC ≤ bAdd vB vR :=
    q2_lemma (d.getI 0 2) (d.getI 1 2) vB vC vP vR x2 x4 (bAdd vB vR) bvC f1 hx2 hvC hx4 hvR rfl
  have q3 : vP ≤ bAdd vR vS :=
    q3_lemma (d.getI 1 0) (d.getI 1 2) (d.getI 2 0) (d.getI 2 1) vP vR vS vC x3 x4 x5
      (bAdd vR vS) bvP p12 f4 f5b hx3 hvP hx4 hvR hx5 hvS rfl
  have q4 : vR ≤ bAdd vP vC := by rw [hvR, hx4]; exact min_le_right _ _
  have q5 : vS ≤ bAdd vT vP :=
    q5_lemma (d.getI 2 0) (d.getI 2 1) vP vT vS vB x5 x6 (bAdd vT vP) bvS f1 hx5 hvS hx6 hvT rfl
  have q6 : vT ≤ bAdd vS vB := by rw [hvT, hx6]; exact min_le_right _ _
  constructor
  · intro i hi k hk j hj
    rw [hch6]
    interval_cases i <;> interval_cases k <;> interval_cases j <;>
      simp only [g01, g02, g10, g12, g20, g21, gdiag 0 (by norm_num),
        gdiag 1 (by norm_num), gdiag 2 (by norm_num)]
    · exact nonneg_bAdd (by omega)
    · exact le_bAdd_zero_left bvB.2
    · exact le_bAdd_zero_left bvC.2
    · exact nonneg_bAdd (by omega)
    · exact le_bAdd_zero_right bvB.2
    · exact q2
    · exact nonneg_bAdd (by omega)
    · exact q1
    · exact le_bAdd_zero_right bvC.2
    · exact le_bAdd_zero_right bvP.2
    · exact nonneg_bAdd (by omega)
    · exact q4
    · exact le_bAdd_zero_left bvP.2
    · exact nonneg_bAdd (by omega)
    · exact le_bAdd_zero_left bvR.2
    · exact q3
    · exact nonneg_bAdd (by omega)
    · exact le_bAdd_zero_right bvR.2
    · exact le_bAdd_zero_right bvS.2
    · exact q6
    · exact nonneg_bAdd (by omega)
    · exact q5
    · exact le_bAdd_zero_right bvT.2
    · exact nonneg_bAdd (by omega)
    · exact le_bAdd_zero_left bvS.2
    · exact le_bAdd_zero_left bvT.2
    · exact nonneg_bAdd (by omega)
  · intro i hi j hj
    rw [hch6]
    interval_cases i <;> interval_cases j <;>
      simp only [g01, g02, g10, g12, g20, g21, gdiag 0 (by norm_num),
        gdiag 1 (by norm_num), gdiag 2 (by norm_num)]
    · exact Or.inr (by norm_num)
    · exact okN_mono (by norm_num) rB
    · exact okN_mono (by norm_num) rC
    · exact okN_mono (by norm_num) rP
    · exact Or.inr (by norm_num)
    · exact okN_mono (by norm_num) rR
    · exact okN_mono (by norm_num) rS
    · exact okN_mono (by norm_num) rT
    · exact Or.inr (by norm_num)

lemma bAdd_inf_left (y : Int) : bAdd infinity y = infinity := by
  unfold bAdd
  rw [if_pos (Or.inl rfl)]

lemma bAdd_inf_right (x : Int) : bAdd x infinity = infinity := by
  unfold bAdd
  rw [if_pos (Or.inr rfl)]

namespace DBM

lemma clocks_canonize (d : DBM) (hcl : d.clocks = 3) : (canonize d).clocks = 3 := by
  rw [canonize_chain d hcl]
  simp only [clocks_canonizeStep]
  exact hcl

lemma length_canonize (d : DBM) (hcl : d.clocks = 3) (hlen : d.dbm.length = 9) :
    (canonize d).dbm.length = 9 := by
  rw [canonize_chain d hcl]
  simp only [length_canonizeStep]
  exact hlen

/-- A tightening step does nothing (as a value, not just entrywise) when
the entry already satisfies the closure inequality through the third
index; the sentinel ranges rule out a spurious firing of the raw guard. -/
lemma canonizeStep_eq_self (d : DBM) (hcl : d.clocks = 3) (hlen : d.dbm.length = 9)
    (c1 c2 : Nat) (h1 : c1 < 3) (h2 : c2 < 3)
    (hcur : okN 10000 (d.getI c1 c2)) (hx : okN 10000 (d.getI c1 (3 - c1 - c2)))
    (hy : okN 10000 (d.getI (3 - c1 - c2) c2))
    (hclosed : d.getI c1 c2 ≤ bAdd (d.getI c1 (3 - c1 - c2)) (d.getI (3 - c1 - c2) c2)) :
    canonizeStep d c1 c2 = d := by
  unfold okN infinity at hcur hx hy
  simp only [canonizeStep, hcl]
  split_ifs with hd hg hf
  · rfl
  · exfalso
    revert hclosed
    unfold bAdd infinity
    unfold infinity at hf
    rw [if_neg (by push_neg; exact hf)]
    omega
  · have hce : d.getI c1 c2 = infinity := by
      revert hclosed
      unfold bAdd infinity
      unfold infinity at hf
      push_neg at hf
      split_ifs with hc0
      · intro hle
        rcases hc0 with hc0 | hc0 <;> omega
      · intro hle
        exfalso
        rcases Classical.em (d.getI c1 (3 - c1 - c2) = 100000) with hxe | hxe
        · exact hc0 (Or.inl hxe)
        · have := hf hxe
          exact hc0 (Or.inr this)
    rw [← hce]
    exact setI_getI_self d hlen c1 c2 (by rw [hcl]; omega)
  · rfl

/-- `canonize` is the identity (as a value) on a closed 3 × 3 matrix with
valid bound entries. -/
lemma canonize_eq_self (d : DBM) (hcl : d.clocks = 3) (hlen : d.dbm.length = 9)
    (hok : ∀ i, i < 3 → ∀ j, j < 3 → okN 10000 (d.getI i j))
    (hclosed : Closed d) :
    canonize d = d := by
  have s1 : canonizeStep d 0 1 = d :=
    canonizeStep_eq_self d hcl hlen 0 1 (by norm_num) (by norm_num)
      (hok 0 (by norm_num) 1 (by norm_num)) (hok 0 (by norm_num) 2 (by norm_num))
      (hok 2 (by norm_num) 1 (by norm_num))
      (hclosed 0 (by norm_num) 2 (by norm_num) 1 (by norm_num))
  have s2 : canonizeStep d 0 2 = d :=
    canonizeStep_eq_self d hcl hlen 0 2 (by norm_num) (by norm_num)
      (hok 0 (by norm_num) 2 (by norm_num)) (hok 0 (by norm_num) 1 (by norm_num))
      (hok 1 (by norm_num) 2 (by norm_num))
      (hclosed 0 (by norm_num) 1 (by norm_num) 2 (by norm_num))
  have s3 : canonizeStep d 1 0 = d :=
    canonizeStep_eq_self d hcl hlen 1 0 (by norm_num) (by norm_num)
      (hok 1 (by norm_num) 0 (by norm_num)) (hok 1 (by norm_num) 2 (by norm_num))
      (hok 2 (by norm_num) 0 (by norm_num))
      (hclosed 1 (by norm_num) 2 (by norm_num) 0 (by norm_num))
  have s4 : canonizeStep d 1 2 = d :=
    canonizeStep_eq_self d hcl hlen 1 2 (by norm_num) (by norm_num)
      (hok 1 (by norm_num) 2 (by norm_num)) (hok 1 (by norm_num) 0 (by norm_num))
      (hok 0 (by norm_num) 2 (by norm_num))
      (hclosed 1 (by norm_num) 0 (by norm_num) 2 (by norm_num))
  have s5 : canonizeStep d 2 0 = d :=
    canonizeStep_eq_self d hcl hlen 2 0 (by norm_num) (by norm_num)
      (hok 2 (by norm_num) 0 (by norm_num)) (hok 2 (by norm_num) 1 (by norm_num))
      (hok 1 (by norm_num) 0 (by norm_num))
      (hclosed 2 (by norm_num) 1 (by norm_num) 0 (by norm_num))
  have s6 : canonizeStep d 2 1 = d :=
    canonizeStep_eq_self d hcl hlen 2 1 (by norm_num) (by norm_num)
      (hok 2 (by norm_num) 1 (by norm_num)) (hok 2 (by norm_num) 0 (by norm_num))
      (hok 0 (by norm_num) 1 (by norm_num))
      (hclosed 2 (by norm_num) 0 (by norm_num) 1 (by norm_num))
  rw [canonize_chain d hcl]
  simp only [canonizeStep_same]
  rw [s1, s2, s3, s4, s5, s6]

/-- Canonization is idempotent on valid-bound matrices with zero diagonal
and no negative cycle. -/
lemma canonize_idem (d : DBM) (hcl : d.clocks = 3) (hlen : d.dbm.length = 9)
    (hok : EntriesOk d) (hdiag : zeroDiag d) (hcyc : nonnegCycles d) :
    canonize (canonize d) = canonize d := by
  obtain ⟨hclosed, hok10⟩ := canonize_spec d hcl hlen hok hdiag hcyc
  exact canonize_eq_self (canonize d) (clocks_canonize d hcl) (length_canonize d hcl hlen)
    hok10 hclosed

end DBM

lemma min_zero_inf : min (0 : Int) infinity = 0 := by decide

namespace DBM

lemma resetPre_one (d : DBM) (hcl : d.clocks = 3) :
    d.resetPre 1 0 = (((d.setI 1 0 0).setI 0 1 0).setI 1 2 infinity).setI 2 1 infinity := by
  simp only [resetPre, clocks_setI, hcl]
  rfl

lemma resetPre_two (d : DBM) (hcl : d.clocks = 3) :
    d.resetPre 2 0 = (((d.setI 2 0 0).setI 0 2 0).setI 2 1 infinity).setI 1 2 infinity := by
  simp only [resetPre, clocks_setI, hcl]
  rfl

/-- After `reset(2, 0)` on a valid 2-clock DBM the entries `D[2,0]` and
`D[0,2]` are exactly `0`: the final canonization does not move them. -/
lemma reset_two_spec (d : DBM) (hcl : d.clocks = 3) (hlen : d.dbm.length = 9)
    (hok : EntriesOk d) :
    (d.reset 2 0).getI 2 0 = 0 ∧ (d.reset 2 0).getI 0 2 = 0 := by
  obtain ⟨P1, hP1⟩ : ∃ x, x = d.setI 2 0 0 := ⟨_, rfl⟩
  obtain ⟨P2, hP2⟩ : ∃ x, x = P1.setI 0 2 0 := ⟨_, rfl⟩
  obtain ⟨P3, hP3⟩ : ∃ x, x = P2.setI 2 1 infinity := ⟨_, rfl⟩
  obtain ⟨E, hE⟩ : ∃ x, x = P3.setI 1 2 infinity := ⟨_, rfl⟩
  have hEdef : d.resetPre 2 0 = E := by
    rw [hE, hP3, hP2, hP1]
    exact resetPre_two d hcl
  have hclP1 : P1.clocks = 3 := by rw [hP1, clocks_setI, hcl]
  have hclP2 : P2.clocks = 3 := by rw [hP2, clocks_setI, hclP1]
  have hclP3 : P3.clocks = 3 := by rw [hP3, clocks_setI, hclP2]
  have hclE : E.clocks = 3 := by rw [hE, clocks_setI, hclP3]
  have hlenP1 : P1.dbm.length = 9 := by rw [hP1, length_setI, hlen]
  have hlenP2 : P2.dbm.length = 9 := by rw [hP2, length_setI, hlenP1]
  have hlenP3 : P3.dbm.length = 9 := by rw [hP3, length_setI, hlenP2]
  have hlenE : E.dbm.length = 9 := by rw [hE, length_setI, hlenP3]
  have hE12 : E.getI 1 2 = infinity := by
    rw [hE]
    exact getI_setI_self P3 hclP3 hlenP3 1 2 (by norm_num) (by norm_num) _
  have hE21 : E.getI 2 1 = infinity := by
    rw [hE, getI_setI_ne P3 hclP3 1 2 2 1 (by norm_num) (by norm_num) (by norm_num)
      (by norm_num) (by omega) _, hP3]
    exact getI_setI_self P2 hclP2 hlenP2 2 1 (by norm_num) (by norm_num) _
  have hE02 : E.getI 0 2 = 0 := by
    rw [hE, getI_setI_ne P3 hclP3 1 2 0 2 (by norm_num) (by norm_num) (by norm_num)
      (by norm_num) (by omega) _, hP3,
      getI_setI_ne P2 hclP2 2 1 0 2 (by norm_num) (by norm_num) (by norm_num)
      (by norm_num) (by omega) _, hP2]
    exact getI_setI_self P1 hclP1 hlenP1 0 2 (by norm_num) (by norm_num) _
  have hE20 : E.getI 2 0 = 0 := by
    rw [hE, getI_setI_ne P3 hclP3 1 2 2 0 (by norm_num) (by norm_num) (by norm_num)
      (by norm_num) (by omega) _, hP3,
      getI_setI_ne P2 hclP2 2 1 2 0 (by norm_num) (by norm_num) (by norm_num)
      (by norm_num) (by omega) _, hP2,
      getI_setI_ne P1 hclP1 0 2 2 0 (by norm_num) (by norm_num) (by norm_num)
      (by norm_num) (by omega) _, hP1]
    exact getI_setI_self d hcl hlen 2 0 (by norm_num) (by norm_num) _
  have hE01 : E.getI 0 1 = d.getI 0 1 := by
    rw [hE, getI_setI_ne P3 hclP3 1 2 0 1 (by norm_num) (by norm_num) (by norm_num)
      (by norm_num) (by omega) _, hP3,
      getI_setI_ne P2 hclP2 2 1 0 1 (by norm_num) (by norm_num) (by norm_num)
      (by norm_num) (by omega) _, hP2,
      getI_setI_ne P1 hclP1 0 2 0 1 (by norm_num) (by norm_num) (by norm_num)
      (by norm_num) (by omega) _, hP1,
      getI_setI_ne d hcl 2 0 0 1 (by norm_num) (by norm_num) (by norm_num)
      (by norm_num) (by omega) _]
  have hE10 : E.getI 1 0 = d.getI 1 0 := by
    rw [hE, getI_setI_ne P3 hclP3 1 2 1 0 (by norm_num) (by norm_num) (by norm_num)
      (by norm_num) (by omega) _, hP3,
      getI_setI_ne P2 hclP2 2 1 1 0 (by norm_num) (by norm_num) (by norm_num)
      (by norm_num) (by omega) _, hP2,
      getI_setI_ne P1 hclP1 0 2 1 0 (by norm_num) (by norm_num) (by norm_num)
      (by norm_num) (by omega) _, hP1,
      getI_setI_ne d hcl 2 0 1 0 (by norm_num) (by norm_num) (by norm_num)
      (by norm_num) (by omega) _]
  -- now the canonize sweep on E
  obtain ⟨e1, he1⟩ : ∃ x, x = E.canonizeStep 0 1 := ⟨_, rfl⟩
  obtain ⟨e2, he2⟩ : ∃ x, x = e1.canonizeStep 0 2 := ⟨_, rfl⟩
  obtain ⟨e3, he3⟩ : ∃ x, x = e2.canonizeStep 1 0 := ⟨_, rfl⟩
  obtain ⟨e4, he4⟩ : ∃ x, x = e3.canonizeStep 1 2 := ⟨_, rfl⟩
  obtain ⟨e5, he5⟩ : ∃ x, x = e4.canonizeStep 2 0 := ⟨_, rfl⟩
  obtain ⟨e6, he6⟩ : ∃ x, x = e5.canonizeStep 2 1 := ⟨_, rfl⟩
  have hch6 : d.reset 2 0 = e6 := by
    show (d.resetPre 2 0).canonize = e6
    rw [hEdef, canonize_chain E hclE]
    simp only [canonizeStep_same]
    rw [he6, he5, he4, he3, he2, he1]
  have hcl1 : e1.clocks = 3 := by rw [he1, clocks_canonizeStep, hclE]
  have hcl2 : e2.clocks = 3 := by rw [he2, clocks_canonizeStep, hcl1]
  have hcl3 : e3.clocks = 3 := by rw [he3, clocks_canonizeStep, hcl2]
  have hcl4 : e4.clocks = 3 := by rw [he4, clocks_canonizeStep, hcl3]
  have hcl5 : e5.clocks = 3 := by rw [he5, clocks_canonizeStep, hcl4]
  have hlen1 : e1.dbm.length = 9 := by rw [he1, length_canonizeStep, hlenE]
  have hlen2 : e2.dbm.length = 9 := by rw [he2, length_canonizeStep, hlen1]
  have hlen3 : e3.dbm.length = 9 := by rw [he3, length_canonizeStep, hlen2]
  have hlen4 : e4.dbm.length = 9 := by rw [he4, length_canonizeStep, hlen3]
  have u1 : ∀ k, k < 3 → ∀ l, l < 3 → ¬(k = 0 ∧ l = 1) → e1.getI k l = E.getI k l := by
    intro k hk l hl hne
    rw [he1]
    exact canonizeStep_other E hclE 0 1 k l (by norm_num) (by norm_num) hk hl
      (by rintro ⟨rfl, rfl⟩; exact hne ⟨rfl, rfl⟩)
  have u2 : ∀ k, k < 3 → ∀ l, l < 3 → ¬(k = 0 ∧ l = 2) → e2.getI k l = e1.getI k l := by
    intro k hk l hl hne
    rw [he2]
    exact canonizeStep_other e1 hcl1 0 2 k l (by norm_num) (by norm_num) hk hl
      (by rintro ⟨rfl, rfl⟩; exact hne ⟨rfl, rfl⟩)
  have u3 : ∀ k, k < 3 → ∀ l, l < 3 → ¬(k = 1 ∧ l = 0) → e3.getI k l = e2.getI k l := by
    intro k hk l hl hne
    rw [he3]
    exact canonizeStep_other e2 hcl2 1 0 k l (by norm_num) (by norm_num) hk hl
      (by rintro ⟨rfl, rfl⟩; exact hne ⟨rfl, rfl⟩)
  have u4 : ∀ k, k < 3 → ∀ l, l < 3 → ¬(k = 1 ∧ l = 2) → e4.getI k l = e3.getI k l := by
    intro k hk l hl hne
    rw [he4]
    exact canonizeStep_other e3 hcl3 1 2 k l (by norm_num) (by norm_num) hk hl
      (by rintro ⟨rfl, rfl⟩; exact hne ⟨rfl, rfl⟩)
  have u5 : ∀ k, k < 3 → ∀ l, l < 3 → ¬(k = 2 ∧ l = 0) → e5.getI k l = e4.getI k l := by
    intro k hk l hl hne
    rw [he5]
    exact canonizeStep_other e4 hcl4 2 0 k l (by norm_num) (by norm_num) hk hl
      (by rintro ⟨rfl, rfl⟩; exact hne ⟨rfl, rfl⟩)
  have u6 : ∀ k, k < 3 → ∀ l, l < 3 → ¬(k = 2 ∧ l = 1) → e6.getI k l = e5.getI k l := by
    intro k hk l hl hne
    rw [he6]
    exact canonizeStep_other e5 hcl5 2 1 k l (by norm_num) (by norm_num) hk hl
      (by rintro ⟨rfl, rfl⟩; exact hne ⟨rfl, rfl⟩)
  have hok01 : okN 10000 (E.getI 0 1) := by
    rw [hE01]
    exact okN_mono (by norm_num) (hok 0 (by norm_num) 1 (by norm_num))
  have hok10 : okN 10000 (E.getI 1 0) := by
    rw [hE10]
    exact okN_mono (by norm_num) (hok 1 (by norm_num) 0 (by norm_num))
  -- step 1: the (0,1) entry becomes min(E01, bAdd E02 E21); record only a range
  have t1 : e1.getI 0 1 = min (E.getI 0 1) (bAdd (E.getI 0 2) (E.getI 2 1)) := by
    rw [he1]
    exact canonizeStep_target E hclE hlenE 0 1 (by norm_num) (by norm_num) (by norm_num)
      hok01 (by rw [hE02]; exact Or.inr (by norm_num)) (by rw [hE21]; exact Or.inl rfl)
  have r1 : okN 10000 (e1.getI 0 1) := by
    rw [t1]
    exact okN_mono (by norm_num)
      (okN_min_bAdd (A := 1000) (B := 1000) (C := 1000) (by rw [hE01]; exact hok 0 (by norm_num) 1 (by norm_num))
        (by rw [hE02]; exact Or.inr (by norm_num)) (by rw [hE21]; exact Or.inl rfl)
        (by norm_num) (by norm_num) (by norm_num) (by norm_num))
  -- step 2: the (0,2) entry stays 0
  have t2 : e2.getI 0 2 = 0 := by
    have h := canonizeStep_target e1 hcl1 hlen1 0 2 (by norm_num) (by norm_num) (by norm_num)
      (by rw [u1 0 (by norm_num) 2 (by norm_num) (by omega), hE02]; exact Or.inr (by norm_num))
      r1
      (by rw [u1 1 (by norm_num) 2 (by norm_num) (by omega), hE12]; exact Or.inl rfl)
    rw [← he2] at h
    rw [h, u1 0 (by norm_num) 2 (by norm_num) (by omega), hE02,
      u1 1 (by norm_num) 2 (by norm_num) (by omega), hE12, bAdd_inf_right]
    exact min_zero_inf
  -- step 3: the (1,0) entry
  have h10e2 : e2.getI 1 0 = d.getI 1 0 := by
    rw [u2 1 (by norm_num) 0 (by norm_num) (by omega),
      u1 1 (by norm_num) 0 (by norm_num) (by omega), hE10]
  have h12e2 : e2.getI 1 2 = infinity := by
    rw [u2 1 (by norm_num) 2 (by norm_num) (by omega),
      u1 1 (by norm_num) 2 (by norm_num) (by omega), hE12]
  have h20e2 : e2.getI 2 0 = 0 := by
    rw [u2 2 (by norm_num) 0 (by norm_num) (by omega),
      u1 2 (by norm_num) 0 (by norm_num) (by omega), hE20]
  have t3 : e3.getI 1 0 = min (e2.getI 1 0) (bAdd (e2.getI 1 2) (e2.getI 2 0)) := by
    rw [he3]
    exact canonizeStep_target e2 hcl2 hlen2 1 0 (by norm_num) (by norm_num) (by norm_num)
      (by rw [h10e2]; exact okN_mono (by norm_num) (hok 1 (by norm_num) 0 (by norm_num)))
      (by rw [h12e2]; exact Or.inl rfl)
      (by rw [h20e2]; exact Or.inr (by norm_num))
  have r3 : okN 10000 (e3.getI 1 0) := by
    rw [t3]
    exact okN_mono (by norm_num)
      (okN_min_bAdd (A := 1000) (B := 1000) (C := 1000)
        (by rw [h10e2]; exact hok 1 (by norm_num) 0 (by norm_num))
        (by rw [h12e2]; exact Or.inl rfl) (by rw [h20e2]; exact Or.inr (by norm_num))
        (by norm_num) (by norm_num) (by norm_num) (by norm_num))
  -- step 5: the (2,0) entry stays 0
  have h20e4 : e4.getI 2 0 = 0 := by
    rw [u4 2 (by norm_num) 0 (by norm_num) (by omega),
      u3 2 (by norm_num) 0 (by norm_num) (by omega)]
    exact h20e2
  have h21e4 : e4.getI 2 1 = infinity := by
    rw [u4 2 (by norm_num) 1 (by norm_num) (by omega),
      u3 2 (by norm_num) 1 (by norm_num) (by omega),
      u2 2 (by norm_num) 1 (by norm_num) (by omega),
      u1 2 (by norm_num) 1 (by norm_num) (by omega), hE21]
  have h10e4 : e4.getI 1 0 = e3.getI 1 0 := by
    rw [u4 1 (by norm_num) 0 (by norm_num) (by omega)]
  have t5 : e5.getI 2 0 = 0 := by
    have h := canonizeStep_target e4 hcl4 hlen4 2 0 (by norm_num) (by norm_num) (by norm_num)
      (by rw [h20e4]; exact Or.inr (by norm_num))
      (by rw [h21e4]; exact Or.inl rfl)
      (by rw [h10e4]; exact r3)
    rw [← he5] at h
    rw [h, h20e4, h21e4, bAdd_inf_left]
    exact min_zero_inf
  -- final entries
  constructor
  · rw [hch6, u6 2 (by norm_num) 0 (by norm_num) (by omega)]
    exact t5
  · rw [hch6, u6 0 (by norm_num) 2 (by norm_num) (by omega),
      u5 0 (by norm_num) 2 (by norm_num) (by omega),
      u4 0 (by norm_num) 2 (by norm_num) (by omega),
      u3 0 (by norm_num) 2 (by norm_num) (by omega)]
    exact t2

/-- After `reset(1, 0)` on a valid 2-clock DBM the entries `D[1,0]` and
`D[0,1]` are exactly `0`. -/
lemma reset_one_spec (d : DBM) (hcl : d.clocks = 3) (hlen : d.dbm.length = 9)
    (hok : EntriesOk d) :
    (d.reset 1 0).getI 1 0 = 0 ∧ (d.reset 1 0).getI 0 1 = 0 := by
  obtain ⟨P1, hP1⟩ : ∃ x, x = d.setI 1 0 0 := ⟨_, rfl⟩
  obtain ⟨P2, hP2⟩ : ∃ x, x = P1.setI 0 1 0 := ⟨_, rfl⟩
  obtain ⟨P3, hP3⟩ : ∃ x, x = P2.setI 1 2 infinity := ⟨_, rfl⟩
  obtain ⟨E, hE⟩ : ∃ x, x = P3.setI 2 1 infinity := ⟨_, rfl⟩
  have hEdef : d.resetPre 1 0 = E := by
    rw [hE, hP3, hP2, hP1]
    exact resetPre_one d hcl
  have hclP1 : P1.clocks = 3 := by rw [hP1, clocks_setI, hcl]
  have hclP2 : P2.clocks = 3 := by rw [hP2, clocks_setI, hclP1]
  have hclP3 : P3.clocks = 3 := by rw [hP3, clocks_setI, hclP2]
  have hclE : E.clocks = 3 := by rw [hE, clocks_setI, hclP3]
  have hlenP1 : P1.dbm.length = 9 := by rw [hP1, length_setI, hlen]
  have hlenP2 : P2.dbm.length = 9 := by rw [hP2, length_setI, hlenP1]
  have hlenP3 : P3.dbm.length = 9 := by rw [hP3, length_setI, hlenP2]
  have hlenE : E.dbm.length = 9 := by rw [hE, length_setI, hlenP3]
  have hE21 : E.getI 2 1 = infinity := by
    rw [hE]
    exact getI_setI_self P3 hclP3 hlenP3 2 1 (by norm_num) (by norm_num) _
  have hE12 : E.getI 1 2 = infinity := by
    rw [hE, getI_setI_ne P3 hclP3 2 1 1 2 (by norm_num) (by norm_num) (by norm_num)
      (by norm_num) (by omega) _, hP3]
    exact getI_setI_self P2 hclP2 hlenP2 1 2 (by norm_num) (by norm_num) _
  have hE01 : E.getI 0 1 = 0 := by
    rw [hE, getI_setI_ne P3 hclP3 2 1 0 1 (by norm_num) (by norm_num) (by norm_num)
      (by norm_num) (by omega) _, hP3,
      getI_setI_ne P2 hclP2 1 2 0 1 (by norm_num) (by norm_num) (by norm_num)
      (by norm_num) (by omega) _, hP2]
    exact getI_setI_self P1 hclP1 hlenP1 0 1 (by norm_num) (by norm_num) _
  have hE10 : E.getI 1 0 = 0 := by
    rw [hE, getI_setI_ne P3 hclP3 2 1 1 0 (by norm_num) (by norm_num) (by norm_num)
      (by norm_num) (by omega) _, hP3,
      getI_setI_ne P2 hclP2 1 2 1 0 (by norm_num) (by norm_num) (by norm_num)
      (by norm_num) (by omega) _, hP2,
      getI_setI_ne P1 hclP1 0 1 1 0 (by norm_num) (by norm_num) (by norm_num)
      (by norm_num) (by omega) _, hP1]
    exact getI_setI_self d hcl hlen 1 0 (by norm_num) (by norm_num) _
  have hE02 : E.getI 0 2 = d.getI 0 2 := by
    rw [hE, getI_setI_ne P3 hclP3 2 1 0 2 (by norm_num) (by norm_num) (by norm_num)
      (by norm_num) (by omega) _, hP3,
      getI_setI_ne P2 hclP2 1 2 0 2 (by norm_num) (by norm_num) (by norm_num)
      (by norm_num) (by omega) _, hP2,
      getI_setI_ne P1 hclP1 0 1 0 2 (by norm_num) (by norm_num) (by norm_num)
      (by norm_num) (by omega) _, hP1,
      getI_setI_ne d hcl 1 0 0 2 (by norm_num) (by norm_num) (by norm_num)
      (by norm_num) (by omega) _]
  have hE20 : E.getI 2 0 = d.getI 2 0 := by
    rw [hE, getI_setI_ne P3 hclP3 2 1 2 0 (by norm_num) (by norm_num) (by norm_num)
      (by norm_num) (by omega) _, hP3,
      getI_setI_ne P2 hclP2 1 2 2 0 (by norm_num) (by norm_num) (by norm_num)
      (by norm_num) (by omega) _, hP2,
      getI_setI_ne P1 hclP1 0 1 2 0 (by norm_num) (by norm_num) (by norm_num)
      (by norm_num) (by omega) _, hP1,
      getI_setI_ne d hcl 1 0 2 0 (by norm_num) (by norm_num) (by norm_num)
      (by norm_num) (by omega) _]
  obtain ⟨e1, he1⟩ : ∃ x, x = E.canonizeStep 0 1 := ⟨_, rfl⟩
  obtain ⟨e2, he2⟩ : ∃ x, x = e1.canonizeStep 0 2 := ⟨_, rfl⟩
  obtain ⟨e3, he3⟩ : ∃ x, x = e2.canonizeStep 1 0 := ⟨_, rfl⟩
  obtain ⟨e4, he4⟩ : ∃ x, x = e3.canonizeStep 1 2 := ⟨_, rfl⟩
  obtain ⟨e5, he5⟩ : ∃ x, x = e4.canonizeStep 2 0 := ⟨_, rfl⟩
  obtain ⟨e6, he6⟩ : ∃ x, x = e5.canonizeStep 2 1 := ⟨_, rfl⟩
  have hch6 : d.reset 1 0 = e6 := by
    show (d.resetPre 1 0).canonize = e6
    rw [hEdef, canonize_chain E hclE]
    simp only [canonizeStep_same]
    rw [he6, he5, he4, he3, he2, he1]
  have hcl1 : e1.clocks = 3 := by rw [he1, clocks_canonizeStep, hclE]
  have hcl2 : e2.clocks = 3 := by rw [he2, clocks_canonizeStep, hcl1]
  have hcl3 : e3.clocks = 3 := by rw [he3, clocks_canonizeStep, hcl2]
  have hcl4 : e4.clocks = 3 := by rw [he4, clocks_canonizeStep, hcl3]
  have hcl5 : e5.clocks = 3 := by rw [he5, clocks_canonizeStep, hcl4]
  have hlen1 : e1.dbm.length = 9 := by rw [he1, length_canonizeStep, hlenE]
  have hlen2 : e2.dbm.length = 9 := by rw [he2, length_canonizeStep, hlen1]
  have u1 : ∀ k, k < 3 → ∀ l, l < 3 → ¬(k = 0 ∧ l = 1) → e1.getI k l = E.getI k l := by
    intro k hk l hl hne
    rw [he1]
    exact canonizeStep_other E hclE 0 1 k l (by norm_num) (by norm_num) hk hl
      (by rintro ⟨rfl, rfl⟩; exact hne ⟨rfl, rfl⟩)
  have u2 : ∀ k, k < 3 → ∀ l, l < 3 → ¬(k = 0 ∧ l = 2) → e2.getI k l = e1.getI k l := by
    intro k hk l hl hne
    rw [he2]
    exact canonizeStep_other e1 hcl1 0 2 k l (by norm_num) (by norm_num) hk hl
      (by rintro ⟨rfl, rfl⟩; exact hne ⟨rfl, rfl⟩)
  have u3 : ∀ k, k < 3 → ∀ l, l < 3 → ¬(k = 1 ∧ l = 0) → e3.getI k l = e2.getI k l := by
    intro k hk l hl hne
    rw [he3]
    exact canonizeStep_other e2 hcl2 1 0 k l (by norm_num) (by norm_num) hk hl
      (by rintro ⟨rfl, rfl⟩; exact hne ⟨rfl, rfl⟩)
  have u4 : ∀ k, k < 3 → ∀ l, l < 3 → ¬(k = 1 ∧ l = 2) → e4.getI k l = e3.getI k l := by
    intro k hk l hl hne
    rw [he4]
    exact canonizeStep_other e3 hcl3 1 2 k l (by norm_num) (by norm_num) hk hl
      (by rintro ⟨rfl, rfl⟩; exact hne ⟨rfl, rfl⟩)
  have u5 : ∀ k, k < 3 → ∀ l, l < 3 → ¬(k = 2 ∧ l = 0) → e5.getI k l = e4.getI k l := by
    intro k hk l hl hne
    rw [he5]
    exact canonizeStep_other e4 hcl4 2 0 k l (by norm_num) (by norm_num) hk hl
      (by rintro ⟨rfl, rfl⟩; exact hne ⟨rfl, rfl⟩)
  have u6 : ∀ k, k < 3 → ∀ l, l < 3 → ¬(k = 2 ∧ l = 1) → e6.getI k l = e5.getI k l := by
    intro k hk l hl hne
    rw [he6]
    exact canonizeStep_other e5 hcl5 2 1 k l (by norm_num) (by norm_num) hk hl
      (by rintro ⟨rfl, rfl⟩; exact hne ⟨rfl, rfl⟩)
  -- step 1: the (0,1) entry stays 0
  have t1 : e1.getI 0 1 = 0 := by
    have h := canonizeStep_target E hclE hlenE 0 1 (by norm_num) (by norm_num) (by norm_num)
      (by rw [hE01]; exact Or.inr (by norm_num))
      (by rw [hE02]; exact okN_mono (by norm_num) (hok 0 (by norm_num) 2 (by norm_num)))
      (by rw [hE21]; exact Or.inl rfl)
    rw [← he1] at h
    rw [h, hE01, hE21, bAdd_inf_right]
    exact min_zero_inf
  -- step 3: the (1,0) entry stays 0
  have h10e2 : e2.getI 1 0 = 0 := by
    rw [u2 1 (by norm_num) 0 (by norm_num) (by omega),
      u1 1 (by norm_num) 0 (by norm_num) (by omega)]
    exact hE10
  have h12e2 : e2.getI 1 2 = infinity := by
    rw [u2 1 (by norm_num) 2 (by norm_num) (by omega),
      u1 1 (by norm_num) 2 (by norm_num) (by omega)]
    exact hE12
  have h20e2 : e2.getI 2 0 = d.getI 2 0 := by
    rw [u2 2 (by norm_num) 0 (by norm_num) (by omega),
      u1 2 (by norm_num) 0 (by norm_num) (by omega)]
    exact hE20
  have t3 : e3.getI 1 0 = 0 := by
    have h := canonizeStep_target e2 hcl2 hlen2 1 0 (by norm_num) (by norm_num) (by norm_num)
      (by rw [h10e2]; exact Or.inr (by norm_num))
      (by rw [h12e2]; exact Or.inl rfl)
      (by rw [h20e2]; exact okN_mono (by norm_num) (hok 2 (by norm_num) 0 (by norm_num)))
    rw [← he3] at h
    rw [h, h10e2, h12e2, bAdd_inf_left]
    exact min_zero_inf
  constructor
  · rw [hch6, u6 1 (by norm_num) 0 (by norm_num) (by omega),
      u5 1 (by norm_num) 0 (by norm_num) (by omega),
      u4 1 (by norm_num) 0 (by norm_num) (by omega)]
    exact t3
  · rw [hch6, u6 0 (by norm_num) 1 (by norm_num) (by omega),
      u5 0 (by norm_num) 1 (by norm_num) (by omega),
      u4 0 (by norm_num) 1 (by norm_num) (by omega),
      u3 0 (by norm_num) 1 (by norm_num) (by omega),
      u2 0 (by norm_num) 1 (by norm_num) (by omega)]
    exact t1

/-- The mutation phase of `reset(1, 0)` severs the correlation entries:
both `D[1,2]` and `D[2,1]` are `infinity` before canonization. -/
lemma resetPre_one_inf (d : DBM) (hcl : d.clocks = 3) (hlen : d.dbm.length = 9) :
    (d.resetPre 1 0).getI 1 2 = infinity ∧ (d.resetPre 1 0).getI 2 1 = infinity := by
  rw [resetPre_one d hcl]
  obtain ⟨P1, hP1⟩ : ∃ x, x = d.setI 1 0 0 := ⟨_, rfl⟩
  obtain ⟨P2, hP2⟩ : ∃ x, x = P1.setI 0 1 0 := ⟨_, rfl⟩
  obtain ⟨P3, hP3⟩ : ∃ x, x = P2.setI 1 2 infinity := ⟨_, rfl⟩
  have hclP1 : P1.clocks = 3 := by rw [hP1, clocks_setI, hcl]
  have hclP2 : P2.clocks = 3 := by rw [hP2, clocks_setI, hclP1]
  have hclP3 : P3.clocks = 3 := by rw [hP3, clocks_setI, hclP2]
  have hlenP1 : P1.dbm.length = 9 := by rw [hP1, length_setI, hlen]
  have hlenP2 : P2.dbm.length = 9 := by rw [hP2, length_setI, hlenP1]
  have hlenP3 : P3.dbm.length = 9 := by rw [hP3, length_setI, hlenP2]
  rw [← hP1, ← hP2, ← hP3]
  constructor
  · rw [getI_setI_ne P3 hclP3 2 1 1 2 (by norm_num) (by norm_num) (by norm_num)
      (by norm_num) (by omega) _, hP3]
    exact getI_setI_self P2 hclP2 hlenP2 1 2 (by norm_num) (by norm_num) _
  · exact getI_setI_self P3 hclP3 hlenP3 2 1 (by norm_num) (by norm_num) _

/-- The mutation phase of `reset(2, 0)` severs the correlation entries. -/
lemma resetPre_two_inf (d : DBM) (hcl : d.clocks = 3) (hlen : d.dbm.length = 9) :
    (d.resetPre 2 0).getI 2 1 = infinity ∧ (d.resetPre 2 0).getI 1 2 = infinity := by
  rw [resetPre_two d hcl]
  obtain ⟨P1, hP1⟩ : ∃ x, x = d.setI 2 0 0 := ⟨_, rfl⟩
  obtain ⟨P2, hP2⟩ : ∃ x, x = P1.setI 0 2 0 := ⟨_, rfl⟩
  obtain ⟨P3, hP3⟩ : ∃ x, x = P2.setI 2 1 infinity := ⟨_, rfl⟩
  have hclP1 : P1.clocks = 3 := by rw [hP1, clocks_setI, hcl]
  have hclP2 : P2.clocks = 3 := by rw [hP2, clocks_setI, hclP1]
  have hclP3 : P3.clocks = 3 := by rw [hP3, clocks_setI, hclP2]
  have hlenP1 : P1.dbm.length = 9 := by rw [hP1, length_setI, hlen]
  have hlenP2 : P2.dbm.length = 9 := by rw [hP2, length_setI, hlenP1]
  have hlenP3 : P3.dbm.length = 9 := by rw [hP3, length_setI, hlenP2]
  rw [← hP1, ← hP2, ← hP3]
  constructor
  · rw [getI_setI_ne P3 hclP3 1 2 2 1 (by norm_num) (by norm_num) (by norm_num)
      (by norm_num) (by omega) _, hP3]
    exact getI_setI_self P2 hclP2 hlenP2 2 1 (by norm_num) (by norm_num) _
  · exact getI_setI_self P3 hclP3 hlenP3 1 2 (by norm_num) (by norm_num) _

/-! Lemmas about the extrapolation loops. -/

lemma extrapStep_same (d : DBM) (M : List Int) (c : Nat) : extrapStep d M c c = d := by
  simp [extrapStep]

lemma clocks_extrapStep (d : DBM) (M : List Int) (x1 x2 : Nat) :
    (extrapStep d M x1 x2).clocks = d.clocks := by
  simp only [extrapStep]
  split_ifs <;> rfl

lemma length_extrapStep (d : DBM) (M : List Int) (x1 x2 : Nat) :
    (extrapStep d M x1 x2).dbm.length = d.dbm.length := by
  simp only [extrapStep]
  split_ifs <;> simp [setI]

lemma extrapStep_other (d : DBM) (M : List Int) (hcl : d.clocks = 3)
    (x1 x2 k l : Nat) (h1 : x1 < 3) (h2 : x2 < 3) (hk : k < 3) (hl : l < 3)
    (hne : ¬(x1 = k ∧ x2 = l)) :
    (extrapStep d M x1 x2).getI k l = d.getI k l := by
  simp only [extrapStep]
  split_ifs with h0 ha hb
  · rfl
  · exact getI_setI_ne d hcl x1 x2 k l h1 h2 hk hl hne _
  · exact getI_setI_ne d hcl x1 x2 k l h1 h2 hk hl hne _
  · rfl

lemma extrapStep_target (d : DBM) (M : List Int) (hcl : d.clocks = 3)
    (hlen : d.dbm.length = 9) (x1 x2 : Nat) (h1 : x1 < 3) (h2 : x2 < 3) (hne : x1 ≠ x2) :
    (extrapStep d M x1 x2).getI x1 x2 =
      if d.getI x1 x2 > M.getD x1 0 then infinity
      else if -(d.getI x1 x2) > M.getD x2 0 then -(M.getD x2 0)
      else d.getI x1 x2 := by
  simp only [extrapStep]
  rw [if_neg hne]
  split_ifs with ha hb
  · exact getI_setI_self d hcl hlen x1 x2 h1 h2 _
  · exact getI_setI_self d hcl hlen x1 x2 h1 h2 _
  · rfl

/-- One extrapolation step does nothing on an entry that is within the
maxima (or is the sentinel, in which case writing `infinity` rewrites the
same value). -/
lemma extrapStep_eq_self (d : DBM) (M : List Int) (x1 x2 : Nat)
    (hcl : d.clocks = 3) (hlen : d.dbm.length = 9) (h1 : x1 < 3) (h2 : x2 < 3)
    (hok : okN 10000 (d.getI x1 x2))
    (hMlb : -100000 ≤ M.getD x2 0)
    (hup : d.getI x1 x2 ≠ infinity → d.getI x1 x2 ≤ M.getD x1 0)
    (hlo : d.getI x1 x2 ≠ infinity → -(d.getI x1 x2) ≤ M.getD x2 0) :
    extrapStep d M x1 x2 = d := by
  simp only [extrapStep]
  split_ifs with h0 ha hb
  · rfl
  · have he : d.getI x1 x2 = infinity := by
      by_cases he : d.getI x1 x2 = infinity
      · exact he
      · exact absurd ha (not_lt.mpr (hup he))
    rw [← he]
    exact setI_getI_self d hlen x1 x2 (by rw [hcl]; omega)
  · exfalso
    by_cases he : d.getI x1 x2 = infinity
    · unfold infinity at he
      omega
    · exact absurd hb (not_lt.mpr (hlo he))
  · rfl

lemma extrapolateLoop_chain (d : DBM) (M : List Int) :
    extrapolateLoop d M =
      ((((((((extrapStep d M 0 0).extrapStep M 0 1).extrapStep M 0 2).extrapStep
        M 1 0).extrapStep M 1 1).extrapStep M 1 2).extrapStep M 2 0).extrapStep
        M 2 1).extrapStep M 2 2 := by
  simp only [extrapolateLoop, List.foldl_cons, List.foldl_nil]

/-- The whole extrapolation loop is the identity on a DBM all of whose
bounds are within the maxima. -/
lemma extrapolateLoop_eq_self (d : DBM) (M : List Int)
    (hcl : d.clocks = 3) (hlen : d.dbm.length = 9)
    (hok : ∀ i, i < 3 → ∀ j, j < 3 → okN 10000 (d.getI i j))
    (hM0 : M.getD 0 0 = infinity) (hM1 : 0 ≤ M.getD 1 0) (hM2 : 0 ≤ M.getD 2 0)
    (hin : ∀ i, i < 3 → ∀ j, j < 3 → i ≠ j → d.getI i j ≠ infinity →
      d.getI i j ≤ M.getD i 0 ∧ -(d.getI i j) ≤ M.getD j 0) :
    extrapolateLoop d M = d := by
  have hMlb : ∀ j, j < 3 → -100000 ≤ M.getD j 0 := by
    intro j hj
    interval_cases j
    · rw [hM0]
      unfold infinity
      norm_num
    · omega
    · omega
  have s01 : extrapStep d M 0 1 = d :=
    extrapStep_eq_self d M 0 1 hcl hlen (by norm_num) (by norm_num)
      (hok 0 (by norm_num) 1 (by norm_num)) (hMlb 1 (by norm_num))
      (fun h => (hin 0 (by norm_num) 1 (by norm_num) (by omega) h).1)
      (fun h => (hin 0 (by norm_num) 1 (by norm_num) (by omega) h).2)
  have s02 : extrapStep d M 0 2 = d :=
    extrapStep_eq_self d M 0 2 hcl hlen (by norm_num) (by norm_num)
      (hok 0 (by norm_num) 2 (by norm_num)) (hMlb 2 (by norm_num))
      (fun h => (hin 0 (by norm_num) 2 (by norm_num) (by omega) h).1)
      (fun h => (hin 0 (by norm_num) 2 (by norm_num) (by omega) h).2)
  have s10 : extrapStep d M 1 0 = d :=
    extrapStep_eq_self d M 1 0 hcl hlen (by norm_num) (by norm_num)
      (hok 1 (by norm_num) 0 (by norm_num)) (hMlb 0 (by norm_num))
      (fun h => (hin 1 (by norm_num) 0 (by norm_num) (by omega) h).1)
      (fun h => (hin 1 (by norm_num) 0 (by norm_num) (by omega) h).2)
  have s12 : extrapStep d M 1 2 = d :=
    extrapStep_eq_self d M 1 2 hcl hlen (by norm_num) (by norm_num)
      (hok 1 (by norm_num) 2 (by norm_num)) (hMlb 2 (by norm_num))
      (fun h => (hin 1 (by norm_num) 2 (by norm_num) (by omega) h).1)
      (fun h => (hin 1 (by norm_num) 2 (by norm_num) (by omega) h).2)
  have s20 : extrapStep d M 2 0 = d :=
    extrapStep_eq_self d M 2 0 hcl hlen (by norm_num) (by norm_num)
      (hok 2 (by norm_num) 0 (by norm_num)) (hMlb 0 (by norm_num))
      (fun h => (hin 2 (by norm_num) 0 (by norm_num) (by omega) h).1)
      (fun h => (hin 2 (by norm_num) 0 (by norm_num) (by omega) h).2)
  have s21 : extrapStep d M 2 1 = d :=
    extrapStep_eq_self d M 2 1 hcl hlen (by norm_num) (by norm_num)
      (hok 2 (by norm_num) 1 (by norm_num)) (hMlb 1 (by norm_num))
      (fun h => (hin 2 (by norm_num) 1 (by norm_num) (by omega) h).1)
      (fun h => (hin 2 (by norm_num) 1 (by norm_num) (by omega) h).2)
  rw [extrapolateLoop_chain]
  simp only [extrapStep_same]
  rw [s01, s02, s10, s12, s20, s21]

/-- Value of one off-diagonal entry after the extrapolation loop: exactly
the conditional rewrite of the spec applied to the original entry. -/
lemma extrapolateLoop_entry (d : DBM) (M : List Int)
    (hcl : d.clocks = 3) (hlen : d.dbm.length = 9)
    (i j : Nat) (hi : i < 3) (hj : j < 3) (hij : i ≠ j) :
    (d.extrapolateLoop M).getI i j =
      if d.getI i j > M.getD i 0 then infinity
      else if -(d.getI i j) > M.getD j 0 then -(M.getD j 0)
      else d.getI i j := by
  obtain ⟨f1, hf1⟩ : ∃ x, x = extrapStep d M 0 1 := ⟨_, rfl⟩
  obtain ⟨f2, hf2⟩ : ∃ x, x = extrapStep f1 M 0 2 := ⟨_, rfl⟩
  obtain ⟨f3, hf3⟩ : ∃ x, x = extrapStep f2 M 1 0 := ⟨_, rfl⟩
  obtain ⟨f4, hf4⟩ : ∃ x, x = extrapStep f3 M 1 2 := ⟨_, rfl⟩
  obtain ⟨f5, hf5⟩ : ∃ x, x = extrapStep f4 M 2 0 := ⟨_, rfl⟩
  obtain ⟨f6, hf6⟩ : ∃ x, x = extrapStep f5 M 2 1 := ⟨_, rfl⟩
  have hch : d.extrapolateLoop M = f6 := by
    rw [extrapolateLoop_chain]
    simp only [extrapStep_same]
    rw [hf6, hf5, hf4, hf3, hf2, hf1]
  have hcl1 : f1.clocks = 3 := by rw [hf1, clocks_extrapStep, hcl]
  have hcl2 : f2.clocks = 3 := by rw [hf2, clocks_extrapStep, hcl1]
  have hcl3 : f3.clocks = 3 := by rw [hf3, clocks_extrapStep, hcl2]
  have hcl4 : f4.clocks = 3 := by rw [hf4, clocks_extrapStep, hcl3]
  have hcl5 : f5.clocks = 3 := by rw [hf5, clocks_extrapStep, hcl4]
  have hlen1 : f1.dbm.length = 9 := by rw [hf1, length_extrapStep, hlen]
  have hlen2 : f2.dbm.length = 9 := by rw [hf2, length_extrapStep, hlen1]
  have hlen3 : f3.dbm.length = 9 := by rw [hf3, length_extrapStep, hlen2]
  have hlen4 : f4.dbm.length = 9 := by rw [hf4, length_extrapStep, hlen3]
  have hlen5 : f5.dbm.length = 9 := by rw [hf5, length_extrapStep, hlen4]
  have u1 : ∀ k, k < 3 → ∀ l, l < 3 → ¬(k = 0 ∧ l = 1) → f1.getI k l = d.getI k l := by
    intro k hk l hl hne
    rw [hf1]
    exact extrapStep_other d M hcl 0 1 k l (by norm_num) (by norm_num) hk hl
      (by rintro ⟨rfl, rfl⟩; exact hne ⟨rfl, rfl⟩)
  have u2 : ∀ k, k < 3 → ∀ l, l < 3 → ¬(k = 0 ∧ l = 2) → f2.getI k l = f1.getI k l := by
    intro k hk l hl hne
    rw [hf2]
    exact extrapStep_other f1 M hcl1 0 2 k l (by norm_num) (by norm_num) hk hl
      (by rintro ⟨rfl, rfl⟩; exact hne ⟨rfl, rfl⟩)
  have u3 : ∀ k, k < 3 → ∀ l, l < 3 → ¬(k = 1 ∧ l = 0) → f3.getI k l = f2.getI k l := by
    intro k hk l hl hne
    rw [hf3]
    exact extrapStep_other f2 M hcl2 1 0 k l (by norm_num) (by norm_num) hk hl
      (by rintro ⟨rfl, rfl⟩; exact hne ⟨rfl, rfl⟩)
  have u4 : ∀ k, k < 3 → ∀ l, l < 3 → ¬(k = 1 ∧ l = 2) → f4.getI k l = f3.getI k l := by
    intro k hk l hl hne
    rw [hf4]
    exact extrapStep_other f3 M hcl3 1 2 k l (by norm_num) (by norm_num) hk hl
      (by rintro ⟨rfl, rfl⟩; exact hne ⟨rfl, rfl⟩)
  have u5 : ∀ k, k < 3 → ∀ l, l < 3 → ¬(k = 2 ∧ l = 0) → f5.getI k l = f4.getI k l := by
    intro k hk l hl hne
    rw [hf5]
    exact extrapStep_other f4 M hcl4 2 0 k l (by norm_num) (by norm_num) hk hl
      (by rintro ⟨rfl, rfl⟩; exact hne ⟨rfl, rfl⟩)
  have u6 : ∀ k, k < 3 → ∀ l, l < 3 → ¬(k = 2 ∧ l = 1) → f6.getI k l = f5.getI k l := by
    intro k hk l hl hne
    rw [hf6]
    exact extrapStep_other f5 M hcl5 2 1 k l (by norm_num) (by norm_num) hk hl
      (by rintro ⟨rfl, rfl⟩; exact hne ⟨rfl, rfl⟩)
  rw [hch]
  interval_cases i <;> interval_cases j
  · omega
  · rw [u6 0 (by norm_num) 1 (by norm_num) (by omega),
      u5 0 (by norm_num) 1 (by norm_num) (by omega),
      u4 0 (by norm_num) 1 (by norm_num) (by omega),
      u3 0 (by norm_num) 1 (by norm_num) (by omega),
      u2 0 (by norm_num) 1 (by norm_num) (by omega), hf1]
    exact extrapStep_target d M hcl hlen 0 1 (by norm_num) (by norm_num) (by omega)
  · rw [u6 0 (by norm_num) 2 (by norm_num) (by omega),
      u5 0 (by norm_num) 2 (by norm_num) (by omega),
      u4 0 (by norm_num) 2 (by norm_num) (by omega),
      u3 0 (by norm_num) 2 (by norm_num) (by omega), hf2,
      extrapStep_target f1 M hcl1 hlen1 0 2 (by norm_num) (by norm_num) (by omega),
      u1 0 (by norm_num) 2 (by norm_num) (by omega)]
  · rw [u6 1 (by norm_num) 0 (by norm_num) (by omega),
      u5 1 (by norm_num) 0 (by norm_num) (by omega),
      u4 1 (by norm_num) 0 (by norm_num) (by omega), hf3,
      extrapStep_target f2 M hcl2 hlen2 1 0 (by norm_num) (by norm_num) (by omega),
      u2 1 (by norm_num) 0 (by norm_num) (by omega),
      u1 1 (by norm_num) 0 (by norm_num) (by omega)]
  · omega
  · rw [u6 1 (by norm_num) 2 (by norm_num) (by omega),
      u5 1 (by norm_num) 2 (by norm_num) (by omega), hf4,
      extrapStep_target f3 M hcl3 hlen3 1 2 (by norm_num) (by norm_num) (by omega),
      u3 1 (by norm_num) 2 (by norm_num) (by omega),
      u2 1 (by norm_num) 2 (by norm_num) (by omega),
      u1 1 (by norm_num) 2 (by norm_num) (by omega)]
  · rw [u6 2 (by norm_num) 0 (by norm_num) (by omega), hf5,
      extrapStep_target f4 M hcl4 hlen4 2 0 (by norm_num) (by norm_num) (by omega),
      u4 2 (by norm_num) 0 (by norm_num) (by omega),
      u3 2 (by norm_num) 0 (by norm_num) (by omega),
      u2 2 (by norm_num) 0 (by norm_num) (by omega),
      u1 2 (by norm_num) 0 (by norm_num) (by omega)]
  · rw [hf6,
      extrapStep_target f5 M hcl5 hlen5 2 1 (by norm_num) (by norm_num) (by omega),
      u5 2 (by norm_num) 1 (by norm_num) (by omega),
      u4 2 (by norm_num) 1 (by norm_num) (by omega),
      u3 2 (by norm_num) 1 (by norm_num) (by omega),
      u2 2 (by norm_num) 1 (by norm_num) (by omega),
      u1 2 (by norm_num) 1 (by norm_num) (by omega)]
  · omega

/-! Diagonal preservation: no operation of the engine ever writes a
diagonal entry (when the two clock indices are distinct). -/

lemma canonizeStep_diag (d : DBM) (hcl : d.clocks = 3) (c1 c2 k : Nat)
    (h1 : c1 < 3) (h2 : c2 < 3) (hk : k < 3) :
    (canonizeStep d c1 c2).getI k k = d.getI k k := by
  by_cases hd : c1 = c2
  · rw [hd, canonizeStep_same]
  · exact canonizeStep_other d hcl c1 c2 k k h1 h2 hk hk (by rintro ⟨rfl, rfl⟩; exact hd rfl)

lemma canonize_diag (d : DBM) (hcl : d.clocks = 3) (k : Nat) (hk : k < 3) :
    (canonize d).getI k k = d.getI k k := by
  obtain ⟨e1, he1⟩ : ∃ x, x = d.canonizeStep 0 1 := ⟨_, rfl⟩
  obtain ⟨e2, he2⟩ : ∃ x, x = e1.canonizeStep 0 2 := ⟨_, rfl⟩
  obtain ⟨e3, he3⟩ : ∃ x, x = e2.canonizeStep 1 0 := ⟨_, rfl⟩
  obtain ⟨e4, he4⟩ : ∃ x, x = e3.canonizeStep 1 2 := ⟨_, rfl⟩
  obtain ⟨e5, he5⟩ : ∃ x, x = e4.canonizeStep 2 0 := ⟨_, rfl⟩
  have hch : canonize d = e5.canonizeStep 2 1 := by
    rw [canonize_chain d hcl]
    simp only [canonizeStep_same]
    rw [he5, he4, he3, he2, he1]
  have hcl1 : e1.clocks = 3 := by rw [he1, clocks_canonizeStep, hcl]
  have hcl2 : e2.clocks = 3 := by rw [he2, clocks_canonizeStep, hcl1]
  have hcl3 : e3.clocks = 3 := by rw [he3, clocks_canonizeStep, hcl2]
  have hcl4 : e4.clocks = 3 := by rw [he4, clocks_canonizeStep, hcl3]
  have hcl5 : e5.clocks = 3 := by rw [he5, clocks_canonizeStep, hcl4]
  rw [hch, canonizeStep_diag e5 hcl5 2 1 k (by norm_num) (by norm_num) hk, he5,
    canonizeStep_diag e4 hcl4 2 0 k (by norm_num) (by norm_num) hk, he4,
    canonizeStep_diag e3 hcl3 1 2 k (by norm_num) (by norm_num) hk, he3,
    canonizeStep_diag e2 hcl2 1 0 k (by norm_num) (by norm_num) hk, he2,
    canonizeStep_diag e1 hcl1 0 2 k (by norm_num) (by norm_num) hk, he1,
    canonizeStep_diag d hcl 0 1 k (by norm_num) (by norm_num) hk]

lemma extrapStep_diag (d : DBM) (M : List Int) (hcl : d.clocks = 3) (x1 x2 k : Nat)
    (h1 : x1 < 3) (h2 : x2 < 3) (hk : k < 3) :
    (extrapStep d M x1 x2).getI k k = d.getI k k := by
  by_cases hd : x1 = x2
  · rw [hd, extrapStep_same]
  · exact extrapStep_other d M hcl x1 x2 k k h1 h2 hk hk (by rintro ⟨rfl, rfl⟩; exact hd rfl)

lemma clocks_extrapolateLoop (d : DBM) (M : List Int) :
    (extrapolateLoop d M).clocks = d.clocks := by
  rw [extrapolateLoop_chain]
  simp only [clocks_extrapStep]

lemma length_extrapolateLoop (d : DBM) (M : List Int) :
    (extrapolateLoop d M).dbm.length = d.dbm.length := by
  rw [extrapolateLoop_chain]
  simp only [length_extrapStep]

lemma extrapolateLoop_diag (d : DBM) (M : List Int) (hcl : d.clocks = 3) (k : Nat)
    (hk : k < 3) :
    (extrapolateLoop d M).getI k k = d.getI k k := by
  obtain ⟨f1, hf1⟩ : ∃ x, x = extrapStep d M 0 1 := ⟨_, rfl⟩
  obtain ⟨f2, hf2⟩ : ∃ x, x = extrapStep f1 M 0 2 := ⟨_, rfl⟩
  obtain ⟨f3, hf3⟩ : ∃ x, x = extrapStep f2 M 1 0 := ⟨_, rfl⟩
  obtain ⟨f4, hf4⟩ : ∃ x, x = extrapStep f3 M 1 2 := ⟨_, rfl⟩
  obtain ⟨f5, hf5⟩ : ∃ x, x = extrapStep f4 M 2 0 := ⟨_, rfl⟩
  have hch : extrapolateLoop d M = extrapStep f5 M 2 1 := by
    rw [extrapolateLoop_chain]
    simp only [extrapStep_same]
    rw [hf5, hf4, hf3, hf2, hf1]
  have hcl1 : f1.clocks = 3 := by rw [hf1, clocks_extrapStep, hcl]
  have hcl2 : f2.clocks = 3 := by rw [hf2, clocks_extrapStep, hcl1]
  have hcl3 : f3.clocks = 3 := by rw [hf3, clocks_extrapStep, hcl2]
  have hcl4 : f4.clocks = 3 := by rw [hf4, clocks_extrapStep, hcl3]
  have hcl5 : f5.clocks = 3 := by rw [hf5, clocks_extrapStep, hcl4]
  rw [hch, extrapStep_diag f5 M hcl5 2 1 k (by norm_num) (by norm_num) hk, hf5,
    extrapStep_diag f4 M hcl4 2 0 k (by norm_num) (by norm_num) hk, hf4,
    extrapStep_diag f3 M hcl3 1 2 k (by norm_num) (by norm_num) hk, hf3,
    extrapStep_diag f2 M hcl2 1 0 k (by norm_num) (by norm_num) hk, hf2,
    extrapStep_diag f1 M hcl1 0 2 k (by norm_num) (by norm_num) hk, hf1,
    extrapStep_diag d M hcl 0 1 k (by norm_num) (by norm_num) hk]

lemma extrapolate_diag (d : DBM) (M : List Int) (hcl : d.clocks = 3) (k : Nat)
    (hk : k < 3) :
    (d.extrapolate M).getI k k = d.getI k k := by
  show ((extrapolateLoop d M).canonize).getI k k = d.getI k k
  rw [canonize_diag _ (by rw [clocks_extrapolateLoop, hcl]) k hk]
  exact extrapolateLoop_diag d M hcl k hk

lemma free_diag (d : DBM) (hcl : d.clocks = 3) (i j k : Nat)
    (hi : i < 3) (hj : j < 3) (hk : k < 3) (hij : i ≠ j) :
    (d.free i j).getI k k = d.getI k k := by
  unfold free
  split_ifs with h0
  · exact getI_setI_ne d hcl 0 j k k (by norm_num) hj hk hk (by rintro ⟨h1, h2⟩; omega) _
  · exact getI_setI_ne d hcl i j k k hi hj hk hk (by rintro ⟨h1, h2⟩; omega) _

lemma leq_diag (d : DBM) (hcl : d.clocks = 3) (i j : Nat) (v : Int) (d2 : DBM)
    (hi : i < 3) (hj : j < 3) (hij : i ≠ j) (h : d.leq i j v = some d2)
    (k : Nat) (hk : k < 3) :
    d2.getI k k = d.getI k k := by
  simp only [leq] at h
  split_ifs at h with hc
  · have hd2 : canonize (d.setI i j (min (d.getI i j) v)) = d2 := Option.some.inj h
    rw [← hd2, canonize_diag _ (by rw [clocks_setI, hcl]) k hk]
    exact getI_setI_ne d hcl i j k k hi hj hk hk (by rintro ⟨h1, h2⟩; omega) _

lemma clocks_resetPre (d : DBM) (hcl : d.clocks = 3) (c : Nat) (hc : c = 1 ∨ c = 2) :
    (d.resetPre c 0).clocks = 3 := by
  rcases hc with rfl | rfl
  · rw [resetPre_one d hcl]
    simp only [clocks_setI]
    exact hcl
  · rw [resetPre_two d hcl]
    simp only [clocks_setI]
    exact hcl

lemma resetPre_diag (d : DBM) (hcl : d.clocks = 3) (c : Nat) (hc : c = 1 ∨ c = 2)
    (k : Nat) (hk : k < 3) :
    (d.resetPre c 0).getI k k = d.getI k k := by
  rcases hc with rfl | rfl
  · obtain ⟨P1, hP1⟩ : ∃ x, x = d.setI 1 0 0 := ⟨_, rfl⟩
    obtain ⟨P2, hP2⟩ : ∃ x, x = P1.setI 0 1 0 := ⟨_, rfl⟩
    obtain ⟨P3, hP3⟩ : ∃ x, x = P2.setI 1 2 infinity := ⟨_, rfl⟩
    have hclP1 : P1.clocks = 3 := by rw [hP1, clocks_setI, hcl]
    have hclP2 : P2.clocks = 3 := by rw [hP2, clocks_setI, hclP1]
    have hclP3 : P3.clocks = 3 := by rw [hP3, clocks_setI, hclP2]
    rw [resetPre_one d hcl, ← hP1, ← hP2, ← hP3,
      getI_setI_ne P3 hclP3 2 1 k k (by norm_num) (by norm_num) hk hk
        (by rintro ⟨h1, h2⟩; omega) _, hP3,
      getI_setI_ne P2 hclP2 1 2 k k (by norm_num) (by norm_num) hk hk
        (by rintro ⟨h1, h2⟩; omega) _, hP2,
      getI_setI_ne P1 hclP1 0 1 k k (by norm_num) (by norm_num) hk hk
        (by rintro ⟨h1, h2⟩; omega) _, hP1,
      getI_setI_ne d hcl 1 0 k k (by norm_num) (by norm_num) hk hk
        (by rintro ⟨h1, h2⟩; omega) _]
  · obtain ⟨P1, hP1⟩ : ∃ x, x = d.setI 2 0 0 := ⟨_, rfl⟩
    obtain ⟨P2, hP2⟩ : ∃ x, x = P1.setI 0 2 0 := ⟨_, rfl⟩
    obtain ⟨P3, hP3⟩ : ∃ x, x = P2.setI 2 1 infinity := ⟨_, rfl⟩
    have hclP1 : P1.clocks = 3 := by rw [hP1, clocks_setI, hcl]
    have hclP2 : P2.clocks = 3 := by rw [hP2, clocks_setI, hclP1]
    have hclP3 : P3.clocks = 3 := by rw [hP3, clocks_setI, hclP2]
    rw [resetPre_two d hcl, ← hP1, ← hP2, ← hP3,
      getI_setI_ne P3 hclP3 1 2 k k (by norm_num) (by norm_num) hk hk
        (by rintro ⟨h1, h2⟩; omega) _, hP3,
      getI_setI_ne P2 hclP2 2 1 k k (by norm_num) (by norm_num) hk hk
        (by rintro ⟨h1, h2⟩; omega) _, hP2,
      getI_setI_ne P1 hclP1 0 2 k k (by norm_num) (by norm_num) hk hk
        (by rintro ⟨h1, h2⟩; omega) _, hP1,
      getI_setI_ne d hcl 2 0 k k (by norm_num) (by norm_num) hk hk
        (by rintro ⟨h1, h2⟩; omega) _]

lemma reset_diag (d : DBM) (hcl : d.clocks = 3) (c : Nat) (hc : c = 1 ∨ c = 2)
    (k : Nat) (hk : k < 3) :
    (d.reset c 0).getI k k = d.getI k k := by
  show ((d.resetPre c 0).canonize).getI k k = d.getI k k
  rw [canonize_diag _ (clocks_resetPre d hcl c hc) k hk]
  exact resetPre_diag d hcl c hc k hk

/-! Structural equality facts about the Python `__eq__`. -/

lemma zip_all_beq_self : ∀ l : List Int, ((l.zip l).all fun p => p.1 == p.2) = true := by
  intro l
  induction l with
  | nil => rfl
  | cons a t ih => simpa using ih

lemma eq_true_of_parts {d1 d2 : DBM} (h1 : d1.clocks = d2.clocks) (h2 : d1.dbm = d2.dbm) :
    DBM.eq d1 d2 = true := by
  unfold eq
  rw [h1, h2]
  simp [zip_all_beq_self]

lemma eq_refl_true (d : DBM) : DBM.eq d d = true := eq_true_of_parts rfl rfl

/-! Colour-blindness: every operation of the algebra reads only `clocks`
and `dbm`, never `color`.  `sameMat` relates two DBMs with identical
dimension and entries (possibly different colours), and is preserved by
every operation. -/

lemma sameMat_getI {d1 d2 : DBM} (h : sameMat d1 d2) :
    ∀ i j, d1.getI i j = d2.getI i j := by
  intro i j
  unfold getI
  rw [h.1, h.2]

lemma sameMat_setI {d1 d2 : DBM} (h : sameMat d1 d2) (i j : Nat) (v : Int) :
    sameMat (d1.setI i j v) (d2.setI i j v) := by
  unfold sameMat setI at *
  simp only
  rw [h.1, h.2]
  exact ⟨rfl, rfl⟩

lemma foldl_rel {β : Type} (R : DBM → DBM → Prop) (f g : DBM → β → DBM)
    (hfg : ∀ a b x, R a b → R (f a x) (g b x)) :
    ∀ (l : List β) a b, R a b → R (l.foldl f a) (l.foldl g b) := by
  intro l
  induction l with
  | nil => intro a b h; exact h
  | cons x t ih => intro a b h; exact ih _ _ (hfg a b x h)

lemma sameMat_canonizeStep {d1 d2 : DBM} (h : sameMat d1 d2) (c1 c2 : Nat) :
    sameMat (canonizeStep d1 c1 c2) (canonizeStep d2 c1 c2) := by
  simp only [canonizeStep]
  rw [h.1]
  simp only [sameMat_getI h]
  split_ifs <;> first
    | exact h
    | exact sameMat_setI h _ _ _

lemma sameMat_canonize {d1 d2 : DBM} (h : sameMat d1 d2) :
    sameMat (canonize d1) (canonize d2) := by
  unfold canonize
  rw [h.1]
  refine foldl_rel sameMat _ _ (fun a b x hab => ?_) _ _ _ h
  rw [hab.1]
  exact foldl_rel sameMat _ _ (fun a2 b2 x2 hab2 => sameMat_canonizeStep hab2 x x2) _ _ _ hab

lemma sameMat_is_consistent {d1 d2 : DBM} (h : sameMat d1 d2) :
    d1.is_consistent = d2.is_consistent := by
  simp only [is_consistent, h.1, sameMat_getI h]

lemma sameMat_leq {d1 d2 : DBM} (h : sameMat d1 d2) (i j : Nat) (v : Int) :
    (d1.leq i j v).map DBM.dbm = (d2.leq i j v).map DBM.dbm := by
  simp only [leq]
  have h2 : sameMat (d1.setI i j (min (d1.getI i j) v))
      (d2.setI i j (min (d2.getI i j) v)) := by
    rw [sameMat_getI h]
    exact sameMat_setI h _ _ _
  rw [sameMat_is_consistent h2]
  split_ifs with hc
  · exact congrArg some (sameMat_canonize h2).2
  · rfl

lemma sameMat_free {d1 d2 : DBM} (h : sameMat d1 d2) (i j : Nat) :
    sameMat (d1.free i j) (d2.free i j) := by
  unfold free
  split_ifs <;> exact sameMat_setI h _ _ _

lemma sameMat_resetPre {d1 d2 : DBM} (h : sameMat d1 d2) (c : Nat) (v : Int) :
    sameMat (d1.resetPre c v) (d2.resetPre c v) := by
  simp only [resetPre]
  have h2 : sameMat ((d1.setI c 0 v).setI 0 c v) ((d2.setI c 0 v).setI 0 c v) :=
    sameMat_setI (sameMat_setI h _ _ _) _ _ _
  rw [h2.1]
  refine foldl_rel sameMat _ _ (fun a b x hab => ?_) _ _ _ h2
  split_ifs
  · exact sameMat_setI (sameMat_setI hab _ _ _) _ _ _
  · exact hab

lemma sameMat_reset {d1 d2 : DBM} (h : sameMat d1 d2) (c : Nat) (v : Int) :
    sameMat (d1.reset c v) (d2.reset c v) :=
  sameMat_canonize (sameMat_resetPre h c v)

end DBM

namespace Heap

lemma copy_heap (h : Heap) (o : Nat) :
    (h.copy o).1 = ⟨h.lists ++ [h.matrix o],
      h.objs ++ [⟨(h.obj o).clocks, h.lists.length, (h.obj o).color⟩]⟩ := rfl

lemma copy_addr (h : Heap) (o : Nat) : (h.copy o).2 = h.objs.length := rfl

lemma copy_obj_old (h : Heap) (o : Nat) (ho : o < h.objs.length) :
    (h.copy o).1.obj o = h.obj o := by
  rw [copy_heap]
  unfold obj
  exact listGetD_append_left noObj _ _ o ho

lemma copy_obj_new (h : Heap) (o : Nat) :
    (h.copy o).1.obj (h.copy o).2 =
      ⟨(h.obj o).clocks, h.lists.length, (h.obj o).color⟩ := by
  rw [copy_heap, copy_addr]
  unfold obj
  exact listGetD_append_length noObj _ _

lemma copy_matrix_old (h : Heap) (o : Nat) (hv : valid h o) :
    (h.copy o).1.matrix o = h.matrix o := by
  unfold matrix
  rw [copy_obj_old h o hv.1, copy_heap]
  exact listGetD_append_left [] _ _ _ hv.2

lemma copy_matrix_new (h : Heap) (o : Nat) :
    (h.copy o).1.matrix (h.copy o).2 = h.matrix o := by
  unfold matrix
  rw [copy_obj_new]
  rw [copy_heap]
  exact listGetD_append_length [] _ _

lemma setEntry_obj (h : Heap) (o o2 : Nat) (i j : Nat) (v : Int) :
    (h.setEntry o2 i j v).obj o = h.obj o := rfl

lemma setColor_lists (h : Heap) (o : Nat) (c : String) :
    (h.setColor o c).lists = h.lists := rfl

lemma setColor_obj_other (h : Heap) (o o2 : Nat) (c : String) (hne : o2 ≠ o) :
    (h.setColor o2 c).obj o = h.obj o := by
  unfold setColor obj
  exact listGetD_set_ne noObj _ _ o2 o hne

lemma setColor_matrix_other (h : Heap) (o o2 : Nat) (c : String) (hne : o2 ≠ o) :
    (h.setColor o2 c).matrix o = h.matrix o := by
  unfold matrix
  rw [setColor_obj_other h o o2 c hne, setColor_lists]

lemma setEntry_matrix_other (h : Heap) (o o2 : Nat) (i j : Nat) (v : Int)
    (hne : (h.obj o2).dbmRef ≠ (h.obj o).dbmRef) :
    (h.setEntry o2 i j v).matrix o = h.matrix o := by
  unfold obj at hne
  unfold setEntry matrix obj
  dsimp only
  exact listGetD_set_ne [] _ _ _ _ hne

end Heap

/-!
Claim theorems.
-/

/-- C1.  The claim says that on an inconsistent tightening the DBM
collapses to the canonical False instance (every entry `-1`) without
raising an error.  The code instead executes `DBM.false()` — omitting the
required `clocks` argument — and raises `TypeError`; in the embedding the
call returns `none` instead of the collapsed DBM.  The failing input is
the REPL-reachable `new zero` followed by `x >= 1`, i.e. `tighten(0,1,-1)`
on `zero(2)`.  The second conjunct records what the claim expected the
collapsed matrix to be. -/
theorem C1_tighten_inconsistent_raises :
    (DBM.zero 2 "red").leq 0 1 (-1) = none ∧
      (DBM.false 2 "red").dbm = List.replicate 9 (-1) := by
  decide

/-- C2 (counterexample).  `true(2)` does not have a zero diagonal: the
constructor fills every row `c1 ≥ 1` with `infinity` including the
diagonal entry, so `D[1,1] = infinity ≠ 0`. -/
theorem C2_true_diagonal_counterexample :
    (DBM.true 2 "red").getI 1 1 = infinity ∧ infinity ≠ (0 : Int) := by
  decide

/-- C2 (amended).  `zero(n)` and `copy` have/preserve a zero diagonal and
the mutators (`canonize`, `tighten`, `free`, `reset`, `extrapolate`, all
with distinct clock indices) never change a diagonal entry; but `true(n)`
itself sets `D[i,i] = infinity` for the real clocks, so its diagonal is
not zero. -/
theorem C2_diagonal_amended :
    (∀ (col : String) (i : Nat), i < 3 → (DBM.zero 2 col).getI i i = 0) ∧
    (∀ col : String, (DBM.true 2 col).getI 0 0 = 0 ∧
      (DBM.true 2 col).getI 1 1 = infinity ∧ (DBM.true 2 col).getI 2 2 = infinity) ∧
    (∀ d : DBM, d.copy = d) ∧
    (∀ (d : DBM) (k : Nat), d.clocks = 3 → k < 3 →
      (DBM.canonize d).getI k k = d.getI k k) ∧
    (∀ (d : DBM) (i j : Nat) (v : Int) (d2 : DBM) (k : Nat), d.clocks = 3 →
      i < 3 → j < 3 → i ≠ j → d.leq i j v = some d2 → k < 3 →
      d2.getI k k = d.getI k k) ∧
    (∀ (d : DBM) (i j k : Nat), d.clocks = 3 → i < 3 → j < 3 → i ≠ j → k < 3 →
      (d.free i j).getI k k = d.getI k k) ∧
    (∀ (d : DBM) (c k : Nat), d.clocks = 3 → (c = 1 ∨ c = 2) → k < 3 →
      (d.reset c 0).getI k k = d.getI k k) ∧
    (∀ (d : DBM) (M : List Int) (k : Nat), d.clocks = 3 → k < 3 →
      (d.extrapolate M).getI k k = d.getI k k) := by
  refine ⟨?_, ?_, ?_, ?_, ?_, ?_, ?_, ?_⟩
  · intro col i hi
    interval_cases i <;> rfl
  · intro col
    exact ⟨rfl, rfl, rfl⟩
  · intro d
    rfl
  · intro d k hcl hk
    exact DBM.canonize_diag d hcl k hk
  · intro d i j v d2 k hcl hi hj hij h hk
    exact DBM.leq_diag d hcl i j v d2 hi hj hij h k hk
  · intro d i j k hcl hi hj hij hk
    exact DBM.free_diag d hcl i j k hi hj hk hij
  · intro d c k hcl hc hk
    exact DBM.reset_diag d hcl c hc k hk
  · intro d M k hcl hk
    exact DBM.extrapolate_diag d M hcl k hk

/-- C2 (witness): the amended theorem applied at concrete inputs — the
diagonal of `zero(2)`, and diagonal preservation of `canonize` and
`reset` on `zero(2)`. -/
theorem C2_diagonal_amended_witness :
    (DBM.zero 2 "red").getI 0 0 = 0 ∧
      (DBM.canonize (DBM.zero 2 "red")).getI 1 1 = (DBM.zero 2 "red").getI 1 1 ∧
      ((DBM.zero 2 "red").reset 2 0).getI 2 2 = (DBM.zero 2 "red").getI 2 2 :=
  ⟨C2_diagonal_amended.1 "red" 0 (by decide),
    C2_diagonal_amended.2.2.2.1 (DBM.zero 2 "red") 1 (by decide) (by decide),
    C2_diagonal_amended.2.2.2.2.2.2.1 (DBM.zero 2 "red") 2 2 (by decide)
      (Or.inr rfl) (by decide)⟩

/-- C3 (counterexample).  The scenario `zero(2); delay; tighten(1,0,5);
tighten(0,2,-3); reset(2,0); delay; tighten(2,0,3)` does not produce the
canonical form of `{x<=5, y<=3, x-y<=5, y-x<=0}` — that form is the
matrix `[[0,0,0],[5,0,5],[3,0,0]]` (certified canonical by the second
conjunct), and the computed result differs from it. -/
theorem C3_scenario_counterexample :
    (DBM.scenario "red").map
        (fun d => DBM.eq d ⟨3, [0, 0, 0, 5, 0, 5, 3, 0, 0], "red"⟩) = some false ∧
      DBM.eq (DBM.canonize ⟨3, [0, 0, 0, 5, 0, 5, 3, 0, 0], "red"⟩)
        ⟨3, [0, 0, 0, 5, 0, 5, 3, 0, 0], "red"⟩ = true := by
  decide

/-- C3 (amended).  The scenario instead produces the canonical form of
`{3 <= x <= 8, 0 <= y <= 3, 3 <= x - y <= 5}`: after `reset(y,0)` the
zone keeps `x ∈ [3,5]` (so `x - y ∈ [3,5]` survives the reset through
canonization), and the final delay plus `y <= 3` lets `x` grow to `8`.
The resulting matrix is `[[0,-3,0],[8,0,5],[3,-3,0]]`, again a
canonization fixed point. -/
theorem C3_scenario_amended :
    DBM.scenario "red" = some ⟨3, [0, -3, 0, 8, 0, 5, 3, -3, 0], "red"⟩ ∧
      DBM.eq (DBM.canonize ⟨3, [0, -3, 0, 8, 0, 5, 3, -3, 0], "red"⟩)
        ⟨3, [0, -3, 0, 8, 0, 5, 3, -3, 0], "red"⟩ = true := by
  decide

/-- C4 (counterexample).  `false(2)` is not left canonical: running
`canonize` on the all `-1` matrix changes it (the sweep tightens entries
to `-2`, `-3`, `-5`), so `canonize(D) == D` fails for the `false(n)`
constructor's result. -/
theorem C4_false_not_canonical_counterexample :
    DBM.eq (DBM.canonize (DBM.false 2 "red")) (DBM.false 2 "red") = false := by
  decide

/-- C4 (amended).  `true(2)` and `zero(2)` are `canonize` fixed points,
`copy` returns the identical instance value, and on any valid-bound
zero-diagonal DBM without negative cycles `canonize` is idempotent — so
every operation that ends in `canonize` (tighten, reset, the `free`
command, the extrapolations) returns a `canonize` fixed point under
those conditions.  `false(n)` is the exception recorded by the
counterexample. -/
theorem C4_canonical_amended :
    (DBM.eq (DBM.canonize (DBM.true 2 "red")) (DBM.true 2 "red") = true) ∧
    (DBM.eq (DBM.canonize (DBM.zero 2 "red")) (DBM.zero 2 "red") = true) ∧
    (∀ d : DBM, DBM.eq d.copy d = true) ∧
    (∀ d : DBM, DBM.WF3 d → DBM.EntriesOk d → DBM.zeroDiag d → DBM.nonnegCycles d →
      DBM.eq (DBM.canonize (DBM.canonize d)) (DBM.canonize d) = true) := by
  refine ⟨by decide, by decide, fun d => DBM.eq_refl_true d, ?_⟩
  intro d hWF hok hdiag hcyc
  rw [DBM.canonize_idem d hWF.1 hWF.2 hok hdiag hcyc]
  exact DBM.eq_refl_true _

/-- C4 (witness): idempotence of `canonize` on `zero(2)`. -/
theorem C4_canonical_amended_witness :
    DBM.WF3 (DBM.zero 2 "red") ∧
      DBM.eq (DBM.canonize (DBM.canonize (DBM.zero 2 "red")))
        (DBM.canonize (DBM.zero 2 "red")) = true :=
  ⟨by decide, C4_canonical_amended.2.2.2 (DBM.zero 2 "red") (by decide) (by decide)
    (by decide) (by decide)⟩

/-- C5 (counterexample).  `is_consistent` (the pairwise check) does not
guarantee closure after `canonize`: the matrix with zero diagonal and
entries `D[0,1]=-1, D[0,2]=1, D[1,0]=1, D[1,2]=-1, D[2,0]=-1, D[2,1]=1`
is consistent but carries a negative 3-cycle, and after `canonize` the
closure `D[0,1] <= D[0,2] + D[2,1]` fails (`-1 > -4`). -/
theorem C5_closure_counterexample :
    (DBM.mk 3 [0, -1, 1, 1, 0, -1, -1, 1, 0] "red").is_consistent = true ∧
      DBM.zeroDiag (DBM.mk 3 [0, -1, 1, 1, 0, -1, -1, 1, 0] "red") ∧
      ¬ DBM.Closed (DBM.canonize (DBM.mk 3 [0, -1, 1, 1, 0, -1, -1, 1, 0] "red")) := by
  decide

/-- C5 (amended).  For every 2-clock DBM with valid bound entries, zero
diagonal and no negative cycle (pairwise — which is `is_consistent` —
and the two triangles), one `canonize` sweep establishes the closure
property `D[i,j] <= D[i,k] + D[k,j]` for every triple, with
infinity-aware addition. -/
theorem C5_canonize_closure_amended :
    ∀ d : DBM, DBM.WF3 d → DBM.EntriesOk d → DBM.zeroDiag d → DBM.nonnegCycles d →
      DBM.Closed (DBM.canonize d) :=
  fun d hWF hok hdiag hcyc => (canonize_spec d hWF.1 hWF.2 hok hdiag hcyc).1

/-- C5 (witness): the amended theorem at `zero(2)`. -/
theorem C5_canonize_closure_amended_witness :
    DBM.WF3 (DBM.zero 2 "red") ∧ DBM.Closed (DBM.canonize (DBM.zero 2 "red")) :=
  ⟨by decide, C5_canonize_closure_amended (DBM.zero 2 "red") (by decide) (by decide)
    (by decide) (by decide)⟩

/-- C6.  After `reset(c, 0)` on a valid 2-clock DBM the entries `D[c,0]`
and `D[0,c]` are both exactly `0` (the internal canonization cannot move
them because the severed correlation entries are `infinity`), and before
canonization the mutation phase has set `D[c,c2]` and `D[c2,c]` to
`infinity` for the other real clock `c2`. -/
theorem C6_reset_spec :
    ∀ (d : DBM) (c : Nat), DBM.WF3 d → DBM.EntriesOk d → (c = 1 ∨ c = 2) →
      ((d.reset c 0).getI c 0 = 0 ∧ (d.reset c 0).getI 0 c = 0) ∧
      (∀ c2, c2 < 3 → c2 ≠ 0 → c2 ≠ c →
        (d.resetPre c 0).getI c c2 = infinity ∧ (d.resetPre c 0).getI c2 c = infinity) := by
  intro d c hWF hok hc
  rcases hc with rfl | rfl
  · refine ⟨DBM.reset_one_spec d hWF.1 hWF.2 hok, ?_⟩
    intro c2 h2 h0 h1
    interval_cases c2
    · exact absurd rfl h0
    · exact absurd rfl h1
    · exact DBM.resetPre_one_inf d hWF.1 hWF.2
  · refine ⟨DBM.reset_two_spec d hWF.1 hWF.2 hok, ?_⟩
    intro c2 h2 h0 h1
    interval_cases c2
    · exact absurd rfl h0
    · exact DBM.resetPre_two_inf d hWF.1 hWF.2
    · exact absurd rfl h1

/-- C6 (witness): `reset(2, 0)` on `zero(2)`. -/
theorem C6_reset_spec_witness :
    DBM.WF3 (DBM.zero 2 "red") ∧
      ((DBM.zero 2 "red").reset 2 0).getI 2 0 = 0 ∧
      ((DBM.zero 2 "red").resetPre 2 0).getI 2 1 = infinity :=
  ⟨by decide,
    (C6_reset_spec (DBM.zero 2 "red") 2 (by decide) (by decide) (Or.inr rfl)).1.1,
    ((C6_reset_spec (DBM.zero 2 "red") 2 (by decide) (by decide) (Or.inr rfl)).2 1
      (by decide) (by decide) (by decide)).1⟩

/-- C7 (counterexample).  An entry exceeding its clock's maximum does
*not* always end up `infinity` in the returned, canonicalized matrix:
on the canonical DBM `{x<=10, y<=50, x-y<=2, y-x<=50}` with maxima
`M = [infinity, 2, 100]`, the bound `D[1,0] = 10 > M[1] = 2` is first set
to `infinity` by the loop, but the final canonization re-tightens it to
the finite `D[1,2] + D[2,0] = 52`. -/
theorem C7_extrapolate_counterexample :
    DBM.Closed (DBM.mk 3 [0, 0, 0, 10, 0, 2, 50, 50, 0] "red") ∧
      (DBM.mk 3 [0, 0, 0, 10, 0, 2, 50, 50, 0] "red").getI 1 0 >
        ([infinity, 2, 100] : List Int).getD 1 0 ∧
      ((DBM.mk 3 [0, 0, 0, 10, 0, 2, 50, 50, 0] "red").extrapolate
        [infinity, 2, 100]).getI 1 0 = 52 ∧
      (52 : Int) ≠ infinity := by
  decide

/-- C7 (amended).  (a) `extrapolate` is a no-op (the identical instance
value) on a canonical valid-bound DBM all of whose bounds are within the
maxima.  (b) In the loop's result *before* the final canonization, every
off-diagonal entry above `M[i]` has become `infinity`, and every entry
with `-D[i,j] > M[j]` (not above `M[i]`) has become `-M[j]` — the
canonized return value may re-tighten such entries to finite bounds, as
the counterexample shows. -/
theorem C7_extrapolate_amended :
    (∀ (d : DBM) (M : List Int), DBM.WF3 d →
      (∀ i, i < 3 → ∀ j, j < 3 → okN 10000 (d.getI i j)) → DBM.Closed d →
      M.getD 0 0 = infinity → 0 ≤ M.getD 1 0 → 0 ≤ M.getD 2 0 →
      (∀ i, i < 3 → ∀ j, j < 3 → i ≠ j → d.getI i j ≠ infinity →
        d.getI i j ≤ M.getD i 0 ∧ -(d.getI i j) ≤ M.getD j 0) →
      d.extrapolate M = d) ∧
    (∀ (d : DBM) (M : List Int) (i j : Nat), DBM.WF3 d → i < 3 → j < 3 → i ≠ j →
      (d.getI i j > M.getD i 0 → (d.extrapolateLoop M).getI i j = infinity) ∧
      (¬(d.getI i j > M.getD i 0) → -(d.getI i j) > M.getD j 0 →
        (d.extrapolateLoop M).getI i j = -(M.getD j 0))) := by
  constructor
  · intro d M hWF hok hclosed hM0 hM1 hM2 hin
    show (DBM.extrapolateLoop d M).canonize = d
    rw [DBM.extrapolateLoop_eq_self d M hWF.1 hWF.2 hok hM0 hM1 hM2 hin]
    exact DBM.canonize_eq_self d hWF.1 hWF.2 hok hclosed
  · intro d M i j hWF hi hj hij
    rw [DBM.extrapolateLoop_entry d M hWF.1 hWF.2 i j hi hj hij]
    constructor
    · intro hgt
      rw [if_pos hgt]
    · intro hng hneg
      rw [if_neg hng, if_pos hneg]

/-- C7 (witness): the no-op half on `zero(2)` with maxima `[∞,5,5]`, and
the infinity half on `true(2)` whose bound `D[1,0] = infinity` exceeds
`M[1] = 5`. -/
theorem C7_extrapolate_amended_witness :
    (DBM.zero 2 "red").extrapolate [infinity, 5, 5] = DBM.zero 2 "red" ∧
      ((DBM.true 2 "red").extrapolateLoop [infinity, 5, 5]).getI 1 0 = infinity :=
  ⟨C7_extrapolate_amended.1 (DBM.zero 2 "red") [infinity, 5, 5] (by decide) (by decide)
      (by decide) (by decide) (by decide) (by decide) (by decide),
    (C7_extrapolate_amended.2 (DBM.true 2 "red") [infinity, 5, 5] 1 0 (by decide)
      (by decide) (by decide) (by decide)).1 (by decide)⟩

/-- C8.  `extrapolate` is the special case `L = U = M` of
`LUextrapolate`: with both maxima lists equal the two commands are the
same function (the loops are syntactically identical at `L = U = M`, and
both end in `canonize`). -/
theorem C8_lu_extrapolate_special_case :
    ∀ (d : DBM) (M : List Int), M.getD 0 0 = infinity →
      d.lu_extrapolate M M = d.extrapolate M :=
  fun d M _ => rfl

/-- C8 (witness): the equality at `true(2)` and `M = [∞, 5, 5]`. -/
theorem C8_lu_extrapolate_special_case_witness :
    ([infinity, 5, 5] : List Int).getD 0 0 = infinity ∧
      (DBM.true 2 "red").lu_extrapolate [infinity, 5, 5] [infinity, 5, 5] =
        (DBM.true 2 "red").extrapolate [infinity, 5, 5] :=
  ⟨by decide,
    C8_lu_extrapolate_special_case (DBM.true 2 "red") [infinity, 5, 5] (by decide)⟩

/-- C9.  `copy` returns an instance that reads equal to the original
(dimension, entries and colour) but shares no mutable state: in the
explicit heap model, writing an entry or the colour through either
instance leaves the other instance's entries and colour unchanged,
because `copy` allocates a fresh list object and a fresh instance. -/
theorem C9_copy_independent :
    ∀ (h : Heap) (o : Nat), Heap.valid h o → copyIndependent h o := by
  intro h o hv
  have hne : h.lists.length ≠ (h.obj o).dbmRef := by
    have := hv.2
    omega
  have hado : (h.copy o).2 ≠ o := by
    rw [Heap.copy_addr]
    have := hv.1
    omega
  refine ⟨⟨?_, ?_, ?_⟩, ⟨?_, ?_⟩, ?_, ?_, ?_, ?_⟩
  · rw [Heap.copy_obj_new]
  · exact Heap.copy_matrix_new h o
  · rw [Heap.copy_obj_new]
  · exact Heap.copy_obj_old h o hv.1
  · exact Heap.copy_matrix_old h o hv
  · intro i j v
    refine ⟨?_, rfl⟩
    refine Heap.setEntry_matrix_other _ o (h.copy o).2 i j v ?_
    rw [Heap.copy_obj_new, Heap.copy_obj_old h o hv.1]
    exact hne
  · intro i j v
    refine ⟨?_, rfl⟩
    refine Heap.setEntry_matrix_other _ (h.copy o).2 o i j v ?_
    rw [Heap.copy_obj_new, Heap.copy_obj_old h o hv.1]
    exact fun he => hne he.symm
  · intro c
    exact ⟨Heap.setColor_obj_other _ o (h.copy o).2 c hado,
      Heap.setColor_matrix_other _ o (h.copy o).2 c hado⟩
  · intro c
    exact ⟨Heap.setColor_obj_other _ (h.copy o).2 o c (fun he => hado he.symm),
      Heap.setColor_matrix_other _ (h.copy o).2 o c (fun he => hado he.symm)⟩

/-- C9 (witness): independence of the copy on a one-instance heap. -/
theorem C9_copy_independent_witness :
    Heap.valid ⟨[[0, 0, 0, 0]], [⟨1, 0, "red"⟩]⟩ 0 ∧
      copyIndependent ⟨[[0, 0, 0, 0]], [⟨1, 0, "red"⟩]⟩ 0 :=
  ⟨by decide, C9_copy_independent ⟨[[0, 0, 0, 0]], [⟨1, 0, "red"⟩]⟩ 0 (by decide)⟩

/-- C10.  The colour never influences the algebra: `__eq__` compares only
the dimension and the zipped entry lists, so matrices equal entrywise
compare equal whatever their colours, and `is_consistent`, `canonize`,
`leq`, `free` and `reset` compute identical matrices on a recoloured
DBM. -/
theorem C10_colour_noninterference :
    (∀ d1 d2 : DBM, d1.clocks = d2.clocks → d1.dbm = d2.dbm → DBM.eq d1 d2 = true) ∧
    (∀ (d : DBM) (c : String), (DBM.recolor d c).is_consistent = d.is_consistent) ∧
    (∀ (d : DBM) (c : String),
      (DBM.canonize (DBM.recolor d c)).dbm = (DBM.canonize d).dbm) ∧
    (∀ (d : DBM) (c : String) (i j : Nat) (v : Int),
      ((DBM.recolor d c).leq i j v).map DBM.dbm = (d.leq i j v).map DBM.dbm) ∧
    (∀ (d : DBM) (c : String) (i j : Nat),
      ((DBM.recolor d c).free i j).dbm = (d.free i j).dbm) ∧
    (∀ (d : DBM) (c : String) (k : Nat) (v : Int),
      ((DBM.recolor d c).reset k v).dbm = (d.reset k v).dbm) := by
  have hrc : ∀ (d : DBM) (c : String), DBM.sameMat (DBM.recolor d c) d := fun d c => ⟨rfl, rfl⟩
  refine ⟨?_, ?_, ?_, ?_, ?_, ?_⟩
  · intro d1 d2 h1 h2
    exact DBM.eq_true_of_parts h1 h2
  · intro d c
    exact DBM.sameMat_is_consistent (hrc d c)
  · intro d c
    exact (DBM.sameMat_canonize (hrc d c)).2
  · intro d c i j v
    exact DBM.sameMat_leq (hrc d c) i j v
  · intro d c i j
    exact (DBM.sameMat_free (hrc d c) i j).2
  · intro d c k v
    exact (DBM.sameMat_reset (hrc d c) k v).2

/-- C10 (witness): two DBMs with identical matrices and different colours
compare equal. -/
theorem C10_colour_noninterference_witness :
    DBM.eq ⟨3, [0, 0, 0, 0, 0, 0, 0, 0, 0], "red"⟩
      ⟨3, [0, 0, 0, 0, 0, 0, 0, 0, 0], "blue"⟩ = true :=
  C10_colour_noninterference.1 ⟨3, [0, 0, 0, 0, 0, 0, 0, 0, 0], "red"⟩
    ⟨3, [0, 0, 0, 0, 0, 0, 0, 0, 0], "blue"⟩ rfl rfl
